import Mathlib

/-!
# IPlugLV2: the LV2 wrapper of iPlug2 (`IPlug/LV2/IPlugLV2.cpp`)

A shallow embedding of `IPlugLV2DSP` (the constructor, port binding, `activate`
and `deactivate`, the block driver `run`, `SendMidiMsg`, the descriptor table),
of the port numbering of `IPlugLV2Editor` and of `binary_find`, followed by
theorems about them.

Conventions of the embedding.

* Host pointers are addresses (`Nat`), `0` being `nullptr`; what the host keeps
  behind an address is given by a `HostMemory`.  Reading through `nullptr`, or
  through an address the host memory does not describe, is a `Fault`.
* Machine integers are `Nat`/`Int`; every conversion between `int64_t`, `uint32_t`
  and `int` is written out (`toUInt32`, `toInt32`).
* Calls into the IPlug base classes and the plug-in callbacks (`OnParamChange`,
  `ProcessMidiMsg`, `ProcessBlock`, ...) are recorded, in order, in `trace`.
* Parameter values are rationals (finite float values; NaN is not modelled).
* The shared parameter lock (`ENTER_PARAMS_MUTEX`) is not modelled.
-/

namespace IPlugLV2

/-! ## Machine integers -/

/-- Conversion of an integer to `uint32_t` (reduction modulo 2^32). -/
def toUInt32 (x : Int) : Nat := (x % 4294967296).toNat

/-- Conversion of an integer to a 32-bit `int` (two's complement wrap). -/
def toInt32 (x : Int) : Int := (x + 2147483648) % 4294967296 - 2147483648

/-! ## LV2 atoms, as far as `run` reads them -/

/-- An `LV2_Atom` seen through the reads `run` makes of it: its `type` header
field, the first 32-bit word of its body (what `((LV2_Atom_URID*)a)->body`
yields), and the number its body encodes when it is a float atom. -/
structure Atom where
  type : Nat
  word : Nat
  value : ℚ
deriving DecidableEq

/-- One `LV2_Atom_Event` of a sequence, seen through the reads `run` makes:
`time.frames` (an `int64_t`), `body.type`, and the body under both of its
interpretations: as an `LV2_Atom_Object` (`otype` and the property list, each
property a key and an atom, in storage order) and as raw MIDI bytes
(`msg[0]`, `msg[1]`, `msg[2]`, the three bytes that follow the event header). -/
structure Event where
  frames : Int
  type : Nat
  otype : Nat
  props : List (Nat × Atom)
  msg0 : Nat
  msg1 : Nat
  msg2 : Nat
deriving DecidableEq

/-- An `LV2_Atom_Sequence` buffer: its `atom.size` header field and the events
stored within that size. -/
structure AtomSequence where
  size : Nat
  events : List Event
deriving DecidableEq

/-- What the host keeps behind an address. -/
inductive HostObject where
  | sequence (q : AtomSequence)
  | control (v : ℚ)
deriving DecidableEq

/-- Host memory: the object behind each address (`none`: nothing mapped there).
Address `0` is `nullptr`. -/
abbrev HostMemory := Nat → Option HostObject

/-- Memory faults. -/
inductive Fault where
  | nullDereference
  | invalidPointer
  | outOfBounds
deriving DecidableEq

/-- Read through a pointer. -/
def deref (mem : HostMemory) (p : Nat) : Except Fault HostObject :=
  if p = 0 then .error .nullDereference
  else match mem p with
    | none => .error .invalidPointer
    | some o => .ok o

/-- Read through a pointer cast to `LV2_Atom_Sequence*`. -/
def derefSequence (mem : HostMemory) (p : Nat) : Except Fault AtomSequence :=
  match deref mem p with
  | .error f => .error f
  | .ok (.sequence q) => .ok q
  | .ok (.control _) => .error .invalidPointer

/-- Read through a pointer cast to `float*`. -/
def derefFloat (mem : HostMemory) (p : Nat) : Except Fault ℚ :=
  match deref mem p with
  | .error f => .error f
  | .ok (.control v) => .ok v
  | .ok (.sequence _) => .error .invalidPointer

/-- The LV2 library function `lv2_atom_object_get(obj, key, &out, 0)` with one
query: `out` receives the first property whose key is `key` and stays null
when there is none.  The argument list is terminated by a zero key, so a zero
`key` is an empty query. -/
def lv2_atom_object_get (props : List (Nat × Atom)) (key : Nat) : Option Atom :=
  if key = 0 then none
  else (props.find? (fun kv => kv.1 == key)).map Prod.snd

/-- The LV2 library function `lv2_midi_is_voice_message`. -/
def lv2_midi_is_voice_message (msg0 : Nat) : Bool :=
  decide (0x80 ≤ msg0) && decide (msg0 < 0xF0)

/-- The LV2 library function `lv2_midi_is_system_message`. -/
def lv2_midi_is_system_message (msg0 : Nat) : Bool :=
  if msg0 = 0xF4 ∨ msg0 = 0xF5 ∨ msg0 = 0xF7 ∨ msg0 = 0xF9 ∨ msg0 = 0xFD then false
  else (msg0 &&& 0xF0) == 0xF0

/-- The constant `LV2_MIDI_MSG_INVALID`. -/
def LV2_MIDI_MSG_INVALID : Nat := 0
/-- The constant `LV2_MIDI_MSG_NOTE_OFF`. -/
def LV2_MIDI_MSG_NOTE_OFF : Nat := 0x80
/-- The constant `LV2_MIDI_MSG_NOTE_ON`. -/
def LV2_MIDI_MSG_NOTE_ON : Nat := 0x90

/-- The LV2 library function `lv2_midi_message_type`. -/
def lv2_midi_message_type (msg0 : Nat) : Nat :=
  if lv2_midi_is_voice_message msg0 then msg0 &&& 0xF0
  else if lv2_midi_is_system_message msg0 then msg0
  else LV2_MIDI_MSG_INVALID

/-! ## The instance -/

/-- The members of `mCoreURIs` that `run` and `SendMidiMsg` read. -/
structure CoreURIs where
  atom_Object : Nat
  atom_URID : Nat
  midi_MidiEvent : Nat
  patch_Set : Nat
  patch_property : Nat
  patch_value : Nat
deriving DecidableEq

/-- The enumeration `EParamSource`, reduced to the two sources the wrapper passes. -/
inductive EParamSource where
  | kReset
  | kHost
deriving DecidableEq

/-- The enumeration `ERoute`. -/
inductive ERoute where
  | kInput
  | kOutput
deriving DecidableEq

/-- Calls made by the wrapper into the IPlug base classes and the plug-in
callbacks.  `OnParamChange` has an optional third argument (`none`: the call
passes two arguments). -/
inductive Call where
  | SetBlockSize (blockSize : Int)
  | AttachBuffers (direction : ERoute) (idx n : Nat) (ppData : List Nat) (nFrames : Int)
  | OnParamChange (paramIdx : Int) (source : EParamSource) (sampleOffset : Option Int)
  | ProcessMidiMsg (mOffset : Int) (mStatus mData1 mData2 : Nat)
  | ProcessBlock (inputs outputs : List Nat) (nFrames : Int)
  | OnActivate (active : Bool)
  | OnReset
deriving DecidableEq

/-- The state of one `IPlugLV2DSP` instance.

* `mPorts`, `mIOPorts`, `mControlPorts`: the three pointer tables (PortTable);
* `mParamIDMap`: the URID to parameter index map (IdentifierMap), as the list
  of its entries;
* `mBlockSize`: the `int` behind `GetBlockSize()`/`SetBlockSize()`;
* `params`: the value of each parameter (`GetParam(i)->Value()`), so that
  `NParams()` is its length;
* `nInputs`, `nOutputs`: `MaxNChannels(ERoute::kInput/kOutput)`;
* `controlPorts`: whether `LV2_CONTROL_PORTS` is defined;
* `trace`: the calls made so far. -/
structure IPlugLV2DSP where
  mCoreURIs : CoreURIs
  mParamIDMap : List (Nat × Int)
  mPorts : List Nat
  mIOPorts : List Nat
  mControlPorts : List Nat
  mBlockSize : Int
  mFirstActivate : Bool
  params : List ℚ
  nInputs : Nat
  nOutputs : Nat
  controlPorts : Bool
  trace : List Call
deriving DecidableEq

/-- The number of parameters, `NParams()`. -/
def IPlugLV2DSP.NParams (s : IPlugLV2DSP) : Nat := s.params.length

/-- The port table sizes the constructor allocates (lines 63 to 65):
`mPorts.Resize(2)`, `mIOPorts.Resize(nInputs + nOutputs)`,
`mControlPorts.Resize(nParams)`. -/
def IPlugLV2DSP.PortsSized (s : IPlugLV2DSP) : Prop :=
  s.mPorts.length = 2 ∧ s.mIOPorts.length = s.nInputs + s.nOutputs ∧
    s.mControlPorts.length = s.NParams

instance (s : IPlugLV2DSP) : Decidable s.PortsSized := by
  unfold IPlugLV2DSP.PortsSized; infer_instance

/-! ### IdentifierMap -/

/-- Lookup in the identifier map without touching it (`find`). -/
def ParamIDMap_find (m : List (Nat × Int)) (urid : Nat) : Option Int :=
  (m.find? (fun kv => kv.1 == urid)).map Prod.snd

/-- Modelled from the spec: the declaration of `mParamIDMap` is in `IPlugLV2.h`,
which is not among the sources; the spec calls it a build-once hash mapping from
an integer key to a dense index.  The source reads it with the subscript
operator (`mParamIDMap[urid]`, line 261; also line 127), which on the standard
associative containers returns the mapped value when the key is present and
otherwise inserts a value-initialised entry (`0`) for the key and returns that.
The result is the value read and the map afterwards. -/
def ParamIDMap_subscript (m : List (Nat × Int)) (urid : Nat) : Int × List (Nat × Int) :=
  match ParamIDMap_find m urid with
  | some idx => (idx, m)
  | none => (0, m ++ [(urid, 0)])

/-! ### Base-class operations -/

/-- Modelled from the spec: `IPlugProcessor::SetBlockSize(int)` is declared in
`IPlugProcessor.h`, which is not among the sources (the constructor passes it an
`int`, lines 69 and 132); per the spec it grows the backing capacity and makes
the given size the maximum.  The call is recorded. -/
def SetBlockSize (s : IPlugLV2DSP) (blockSize : Int) : IPlugLV2DSP :=
  { s with mBlockSize := blockSize, trace := s.trace ++ [Call.SetBlockSize blockSize] }

/-- Record a call. -/
def emit (s : IPlugLV2DSP) (c : Call) : IPlugLV2DSP :=
  { s with trace := s.trace ++ [c] }

/-- Modelled from the spec: `IParam::Set` is declared in `IPlugParameter.h`, which
is not among the sources; per the spec the new value is stored for the
parameter. -/
def IParam_Set (s : IPlugLV2DSP) (i : Nat) (v : ℚ) : IPlugLV2DSP :=
  { s with params := s.params.set i v }

/-! ## `connect_port` (lines 174 to 191) -/

/-- The method `IPlugLV2DSP::connect_port(uint32_t port, void *data)`. -/
def connect_port (s : IPlugLV2DSP) (port : Nat) (data : Nat) : IPlugLV2DSP :=
  if port < s.mPorts.length then
    { s with mPorts := s.mPorts.set port data }
  else
    let port := port - s.mPorts.length
    if port < s.mIOPorts.length then
      { s with mIOPorts := s.mIOPorts.set port data }
    else
      let port := port - s.mIOPorts.length
      if port < s.mControlPorts.length then
        { s with mControlPorts := s.mControlPorts.set port data }
      else s

/-! ## `run` (lines 206 to 304) -/

/-- The block size guard at the start of `run` (lines 212 to 217):
`if (GetBlockSize() < n_samples) SetBlockSize(n_samples);`.  `GetBlockSize()` is
an `int` and `n_samples` a `uint32_t`, so the comparison is made in `uint32_t`
and the argument of `SetBlockSize` is converted to `int`. -/
def run_blockSizeGuard (s : IPlugLV2DSP) (n_samples : Nat) : IPlugLV2DSP :=
  if toUInt32 s.mBlockSize < n_samples then SetBlockSize s (toInt32 n_samples) else s

/-- The patch-set part of the loop body (lines 232 to 263) for one event.
`none` is the `continue` of lines 250 and 257: the rest of the body is skipped. -/
def run_object (s : IPlugLV2DSP) (n_samples : Nat) (ev : Event) : Option IPlugLV2DSP :=
  if ev.type = s.mCoreURIs.atom_Object then
    if ev.otype = s.mCoreURIs.patch_Set then
      let sampleAt : Nat := toUInt32 ev.frames
      let sampleAt : Nat :=
        if sampleAt ≥ n_samples then toUInt32 ((n_samples : Int) - 1) else sampleAt
      match lv2_atom_object_get ev.props s.mCoreURIs.patch_property with
      | none => none
      | some property =>
        if property.type ≠ s.mCoreURIs.atom_URID then none
        else
          match lv2_atom_object_get ev.props s.mCoreURIs.patch_value with
          | none => none
          | some _val =>
            let urid := property.word
            let r := ParamIDMap_subscript s.mParamIDMap urid
            some (emit { s with mParamIDMap := r.2 }
              (Call.OnParamChange r.1 EParamSource.kHost (some (toInt32 sampleAt))))
    else some s
  else some s

/-- The MIDI part of the loop body (lines 265 to 276) for one event. -/
def run_midi (s : IPlugLV2DSP) (ev : Event) : IPlugLV2DSP :=
  if ev.type = s.mCoreURIs.midi_MidiEvent then
    let t := lv2_midi_message_type ev.msg0
    if t = LV2_MIDI_MSG_NOTE_ON ∨ t = LV2_MIDI_MSG_NOTE_OFF then
      emit s (Call.ProcessMidiMsg (toInt32 ev.frames) ev.msg0 ev.msg1 ev.msg2)
    else s
  else s

/-- The body of `LV2_ATOM_SEQUENCE_FOREACH` (lines 229 to 277) for one event. -/
def run_event (n_samples : Nat) (s : IPlugLV2DSP) (ev : Event) : IPlugLV2DSP :=
  match run_object s n_samples ev with
  | none => s
  | some s1 => run_midi s1 ev

/-- The loop over the events of the input sequence, in storage order. -/
def run_events (s : IPlugLV2DSP) (n_samples : Nat) (evs : List Event) : IPlugLV2DSP :=
  evs.foldl (run_event n_samples) s

/-- One iteration of the control port loop (lines 284 to 294). -/
def run_controlPort (mem : HostMemory) (s : IPlugLV2DSP) (i : Nat) : Except Fault IPlugLV2DSP :=
  match s.mControlPorts[i]? with
  | none => .error .outOfBounds
  | some pParam =>
    if pParam ≠ 0 then
      match derefFloat mem pParam with
      | .error f => .error f
      | .ok v =>
        match s.params[i]? with
        | none => .error .outOfBounds
        | some cur =>
          if cur ≠ v then
            .ok (emit (IParam_Set s i v) (Call.OnParamChange i EParamSource.kHost none))
          else .ok s
    else .ok s

/-- The control port loop (lines 282 to 295), for `i` from `0` to `nParams - 1`. -/
def run_controlPorts (mem : HostMemory) (s : IPlugLV2DSP) : Except Fault IPlugLV2DSP :=
  (List.range s.NParams).foldlM (run_controlPort mem) s

/-- The method `IPlugLV2DSP::run(uint32_t n_samples)`. -/
def run (s : IPlugLV2DSP) (mem : HostMemory) (n_samples : Nat) : Except Fault IPlugLV2DSP :=
  let nInputs := s.nInputs
  let nOutputs := s.nOutputs
  let s := run_blockSizeGuard s n_samples
  let inPorts := s.mIOPorts.take nInputs
  let outPorts := (s.mIOPorts.drop nInputs).take nOutputs
  let s := emit s (Call.AttachBuffers ERoute.kInput 0 nInputs inPorts (toInt32 n_samples))
  let s := emit s (Call.AttachBuffers ERoute.kOutput 0 nOutputs outPorts (toInt32 n_samples))
  match s.mPorts[0]? with
  | none => .error .outOfBounds
  | some port0 =>
    match derefSequence mem port0 with
    | .error f => .error f
    | .ok q =>
      let s := run_events s n_samples q.events
      match (if s.controlPorts then run_controlPorts mem s else .ok s) with
      | .error f => .error f
      | .ok s => .ok (emit s (Call.ProcessBlock inPorts outPorts (toInt32 n_samples)))

/-! ## `SendMidiMsg` (lines 149 to 169) -/

/-- The message type `IMidiMsg`. -/
structure IMidiMsg where
  mOffset : Int
  mStatus : Nat
  mData1 : Nat
  mData2 : Nat
deriving DecidableEq

/-- The LV2 library function `lv2_atom_pad_size`: round up to a multiple of 8. -/
def lv2_atom_pad_size (size : Nat) : Nat := (size + 7) / 8 * 8

/-- The LV2 library function `lv2_atom_sequence_append_event(seq, capacity, event)`
for an event of body size 3 (so 16 + 3 bytes in all): `none` is the null
result (not enough room), otherwise the sequence with the event appended. -/
def lv2_atom_sequence_append_event (q : AtomSequence) (capacity : Nat) (ev : Event) :
    Option AtomSequence :=
  let total_size := 16 + 3
  if toUInt32 ((capacity : Int) - q.size) < total_size then none
  else some { size := q.size + lv2_atom_pad_size total_size, events := q.events ++ [ev] }

/-- The method `IPlugLV2DSP::SendMidiMsg(const IMidiMsg& msg)`: the returned flag
and the host memory afterwards. -/
def SendMidiMsg (s : IPlugLV2DSP) (mem : HostMemory) (msg : IMidiMsg) :
    Except Fault (Bool × HostMemory) :=
  match s.mPorts[1]? with
  | none => .error .outOfBounds
  | some out_port =>
    match derefSequence mem out_port with
    | .error f => .error f
    | .ok q =>
      let ev : Event :=
        { frames := msg.mOffset, type := s.mCoreURIs.midi_MidiEvent, otype := 0, props := [],
          msg0 := msg.mStatus, msg1 := msg.mData1, msg2 := msg.mData2 }
      match lv2_atom_sequence_append_event q q.size ev with
      | none => .ok (true, mem)
      | some q1 =>
        .ok (true, fun a => if a = out_port then some (HostObject.sequence q1) else mem a)


/-! ## Scenarios -/

/-- The URIDs a host hands out for the core URIs (distinct, non-zero). -/
def scenarioURIs : CoreURIs :=
  { atom_Object := 1, atom_URID := 2, midi_MidiEvent := 3, patch_Set := 4,
    patch_property := 5, patch_value := 6 }

/-- An instance with two parameters, Par0 and Par1 (URIDs 10 and 11, both
holding 0), one input and one output channel, all ports bound except the
control ports, negotiated block size 64, built without `LV2_CONTROL_PORTS`. -/
def twoParams : IPlugLV2DSP :=
  { mCoreURIs := scenarioURIs, mParamIDMap := [(10, 0), (11, 1)], mPorts := [1000, 2000],
    mIOPorts := [3000, 4000], mControlPorts := [0, 0], mBlockSize := 64,
    mFirstActivate := false, params := [0, 0], nInputs := 1, nOutputs := 1,
    controlPorts := false, trace := [] }

/-- A patch-set event: an object of type patch-set with a URID property `urid`
and a float value `v` (float atoms have URID 7). -/
def patchSet (frames : Int) (urid : Nat) (v : ℚ) : Event :=
  { frames := frames, type := 1, otype := 4,
    props := [(5, { type := 2, word := urid, value := 0 }),
              (6, { type := 7, word := 0, value := v })],
    msg0 := 0, msg1 := 0, msg2 := 0 }

/-- A raw MIDI event of three bytes. -/
def midiEvent (frames : Int) (b0 b1 b2 : Nat) : Event :=
  { frames := frames, type := 3, otype := 0, props := [], msg0 := b0, msg1 := b1, msg2 := b2 }

/-- Host memory with the input sequence `evs` at address 1000, an empty
output sequence at address 2000 and a control value 1/2 at address 5000.  The
`size` given to the input sequence is nominal (24 bytes an event): `run` reads
the events within the size, not the size. -/
def hostWith (evs : List Event) : HostMemory :=
  fun a =>
    if a = 1000 then some (HostObject.sequence { size := 8 + 24 * evs.length, events := evs })
    else if a = 2000 then some (HostObject.sequence { size := 8, events := [] })
    else if a = 5000 then some (HostObject.control (1 / 2))
    else none

/-- The block of the specification scenario: a patch-set event for Par0 at
offset 10 with value 0.75 and a note-on (0x90, 60, 100) at offset 20. -/
def scenarioEvents : List Event := [patchSet 10 10 (3 / 4), midiEvent 20 0x90 60 100]

/-- The two-parameter instance built with `LV2_CONTROL_PORTS`, the control
port of Par0 bound to address 5000 and that of Par1 left null. -/
def twoParamsControl : IPlugLV2DSP :=
  { twoParams with controlPorts := true, mControlPorts := [5000, 0] }

/-- The two-parameter instance with negotiated maximum block size 128. -/
def twoParams128 : IPlugLV2DSP := { twoParams with mBlockSize := 128 }

/-! ## Observations on the trace -/

/-- The MIDI relay invocations in a trace, in order: the arguments
(offset, status, data1, data2) of each `ProcessMidiMsg` call. -/
def midiCalls (tr : List Call) : List (Int × Nat × Nat × Nat) :=
  tr.filterMap fun c =>
    match c with
    | Call.ProcessMidiMsg o b0 b1 b2 => some (o, b0, b1, b2)
    | _ => none

/-- A raw MIDI event whose leading status byte classifies as note-on or note-off. -/
def isNoteEvent (u : CoreURIs) (ev : Event) : Bool :=
  decide (ev.type = u.midi_MidiEvent) &&
    (decide (lv2_midi_message_type ev.msg0 = LV2_MIDI_MSG_NOTE_ON) ||
      decide (lv2_midi_message_type ev.msg0 = LV2_MIDI_MSG_NOTE_OFF))

/-- The relay invocations as the specification states them: one per note
event, in storage order, with the event's own time-tag and its three bytes. -/
def relayAsStated (u : CoreURIs) (evs : List Event) : List (Int × Nat × Nat × Nat) :=
  (evs.filter (isNoteEvent u)).map fun e => (e.frames, e.msg0, e.msg1, e.msg2)

/-- The relay invocations with the time-tag converted to `int`, as the cast
`(int)(ev->time.frames)` of line 272 does. -/
def relayInt32 (u : CoreURIs) (evs : List Event) : List (Int × Nat × Nat × Nat) :=
  (evs.filter (isNoteEvent u)).map fun e => (toInt32 e.frames, e.msg0, e.msg1, e.msg2)

/-- Every control port the control port loop reads is null or points to a
float the host memory holds (only when `LV2_CONTROL_PORTS` is defined). -/
def ControlPortsReadable (mem : HostMemory) (s : IPlugLV2DSP) : Prop :=
  s.controlPorts = true →
    ∀ i, i < s.NParams → ∃ p, s.mControlPorts[i]? = some p ∧ (p = 0 ∨ ∃ v, derefFloat mem p = .ok v)

/-! ## `activate` and `deactivate` (lines 193 to 204, 306 to 309) -/

/-- The method `IPlugLV2DSP::activate()`. -/
def activate (s : IPlugLV2DSP) : IPlugLV2DSP :=
  let s :=
    if s.mFirstActivate then
      let s := { s with mFirstActivate := false }
      let nParams := s.NParams
      (List.range nParams).foldl
        (fun (s : IPlugLV2DSP) (i : Nat) => emit s (Call.OnParamChange (i : Int) EParamSource.kReset none)) s
    else s
  let s := emit s (Call.OnActivate true)
  emit s Call.OnReset

/-- The method `IPlugLV2DSP::deactivate()`. -/
def deactivate (s : IPlugLV2DSP) : IPlugLV2DSP :=
  emit s (Call.OnActivate false)

/-- The two lifecycle calls of the host. -/
inductive LifecycleCall where
  | activate
  | deactivate
deriving DecidableEq

/-- Apply a sequence of lifecycle calls to an instance, in order. -/
def lifecycle (s : IPlugLV2DSP) (cs : List LifecycleCall) : IPlugLV2DSP :=
  cs.foldl (fun s c =>
    match c with
    | LifecycleCall.activate => activate s
    | LifecycleCall.deactivate => deactivate s) s

/-- The parameter-reset notifications in a trace, in order: the parameter index
of each `OnParamChange(i, kReset)` call. -/
def resetCalls (tr : List Call) : List Int :=
  tr.filterMap fun c =>
    match c with
    | Call.OnParamChange i EParamSource.kReset none => some i
    | _ => none

/-- The activation signals in a trace, in order: the argument of each
`OnActivate` call (`true`: activated, `false`: deactivated). -/
def activationCalls (tr : List Call) : List Bool :=
  tr.filterMap fun c =>
    match c with
    | Call.OnActivate b => some b
    | _ => none

/-- The full parameter reset: one reset notification per parameter ordinal
`0 .. nParams - 1`, in order. -/
def fullReset (nParams : Nat) : List Call :=
  (List.range nParams).map fun (i : Nat) => Call.OnParamChange (i : Int) EParamSource.kReset none

/-- The two-parameter instance as the constructor leaves it: not yet activated. -/
def twoParamsFresh : IPlugLV2DSP := { twoParams with mFirstActivate := true }

/-! ## The constructor (lines 50 to 139) -/

/-- The LV2 constant `LV2_OPTIONS__options`. -/
def LV2_OPTIONS__options : String := "http://lv2plug.in/ns/ext/options#options"
/-- The LV2 constant `LV2_URID__map`. -/
def LV2_URID__map : String := "http://lv2plug.in/ns/ext/urid#map"
/-- The LV2 constant `LV2_BUF_SIZE__maxBlockLength`. -/
def LV2_BUF_SIZE__maxBlockLength : String := "http://lv2plug.in/ns/ext/buf-size#maxBlockLength"
/-- The LV2 constant `LV2_ATOM__Object`. -/
def LV2_ATOM__Object : String := "http://lv2plug.in/ns/ext/atom#Object"
/-- The LV2 constant `LV2_ATOM__URID`. -/
def LV2_ATOM__URID : String := "http://lv2plug.in/ns/ext/atom#URID"
/-- The LV2 constant `LV2_MIDI__MidiEvent`. -/
def LV2_MIDI__MidiEvent : String := "http://lv2plug.in/ns/ext/midi#MidiEvent"
/-- The LV2 constant `LV2_PATCH__Set`. -/
def LV2_PATCH__Set : String := "http://lv2plug.in/ns/ext/patch#Set"
/-- The LV2 constant `LV2_PATCH__property`. -/
def LV2_PATCH__property : String := "http://lv2plug.in/ns/ext/patch#property"
/-- The LV2 constant `LV2_PATCH__value`. -/
def LV2_PATCH__value : String := "http://lv2plug.in/ns/ext/patch#value"

/-- One entry of the host's options array (`LV2_Options_Option`), as far as the
constructor reads it: `key`, `size`, and the `int` behind the `value` pointer
(`none`: a null pointer). -/
structure LV2_Options_Option where
  key : Nat
  size : Nat
  value : Option Int

/-- What the host keeps behind `feature->data`, as the URI of the feature
defines it: the options array (terminated by an entry of key 0), the URID map
service (its `map` function), or data this wrapper never reads. -/
inductive FeatureData where
  | options (opts : List LV2_Options_Option)
  | uridMap (map : String → Nat)
  | other

/-- One `LV2_Feature`. -/
structure LV2_Feature where
  URI : String
  data : FeatureData

/-- The part of `InstanceInfo` the constructor reads: the sample rate and the
feature list (`none`: a null `features` pointer; otherwise the entries before
the terminating null). -/
structure InstanceInfo where
  rate : ℚ
  features : Option (List LV2_Feature)

/-- What the build configuration and the base classes fix for an instance:
the macros `PLUG_URI` and `DEFAULT_BLOCK_SIZE` (from `config.h` and
`IPlugConstants.h`, not among the sources), `MaxNChannels` for both routes, the
initial parameter values, and whether `LV2_CONTROL_PORTS` is defined. -/
structure Config where
  PLUG_URI : String
  DEFAULT_BLOCK_SIZE : Int
  nInputs : Nat
  nOutputs : Nat
  params : List ℚ
  controlPorts : Bool

/-- The storage the constructor never writes on some path, with the content it
happens to hold: the members of `mCoreURIs` (assigned only inside
`if (urid_map)`, lines 106 to 130; the constructor's initialiser list does not
mention them) and the entries of the three freshly resized pointer tables. -/
structure Indeterminate where
  mCoreURIs : CoreURIs
  mPorts : Nat → Nat
  mIOPorts : Nat → Nat
  mControlPorts : Nat → Nat

/-- The pointers the feature loop (lines 75 to 91) ends with: `options` and
`urid_map` (`none`: null).  A later feature of the same URI overrides an
earlier one. -/
def scanFeatures (features : List LV2_Feature) :
    Option (List LV2_Options_Option) × Option (String → Nat) :=
  features.foldl
    (fun acc feature =>
      if feature.URI = LV2_OPTIONS__options then
        (match feature.data with
          | FeatureData.options opts => some opts
          | _ => none, acc.2)
      else if feature.URI = LV2_URID__map then
        (acc.1, match feature.data with
          | FeatureData.uridMap map => some map
          | _ => none)
      else acc)
    (none, none)

/-- The options loop (lines 97 to 103): the entries before the first one of key
0 are visited in order; a matching entry sets `block_size`. -/
def scanOptions (opts : List LV2_Options_Option) (maxBlockLengthID : Nat) (block_size : Int) :
    Int :=
  (opts.takeWhile fun o => o.key ≠ 0).foldl
    (fun block_size o =>
      match o.value with
      | some v => if o.key = maxBlockLengthID ∧ o.size = 4 then v else block_size
      | none => block_size)
    block_size

/-- The assignment `mParamIDMap[urid] = idx` (line 127): the entry of the key is
overwritten, or added when the key is new. -/
def ParamIDMap_assign (m : List (Nat × Int)) (urid : Nat) (idx : Int) : List (Nat × Int) :=
  match ParamIDMap_find m urid with
  | some _ => m.map fun kv => if kv.1 = urid then (kv.1, idx) else kv
  | none => m ++ [(urid, idx)]

/-- The parameter loop (lines 124 to 128): parameter `n` is registered under
the URID of `PLUG_URI#Par<n>` (the formatted text is assumed shorter than the
2048 characters `SetFormatted` allows). -/
def mapParams (map : String → Nat) (PLUG_URI : String) (nParams : Nat) : List (Nat × Int) :=
  (List.range nParams).foldl
    (fun m (n : Nat) => ParamIDMap_assign m (map (PLUG_URI ++ "#Par" ++ toString n)) (n : Int))
    []

/-- The constructor `IPlugLV2DSP::IPlugLV2DSP(const InstanceInfo&, const Config&)`.
`SetSampleRate` and `SetChannelConnections` only touch bookkeeping of the base
class that nothing here reads; they are left out. -/
def construct (info : InstanceInfo) (config : Config) (junk : Indeterminate) : IPlugLV2DSP :=
  let nInputs := config.nInputs
  let nOutputs := config.nOutputs
  let nParams := config.params.length
  let block_size := config.DEFAULT_BLOCK_SIZE
  let found : Option (List LV2_Options_Option) × Option (String → Nat) :=
    match info.features with
    | some features => scanFeatures features
    | none => (none, none)
  let block_size :=
    match found.1, found.2 with
    | some options, some urid_map =>
      scanOptions options (urid_map LV2_BUF_SIZE__maxBlockLength) block_size
    | _, _ => block_size
  let mCoreURIs : CoreURIs :=
    match found.2 with
    | some urid_map =>
      { atom_Object := urid_map LV2_ATOM__Object,
        atom_URID := urid_map LV2_ATOM__URID,
        midi_MidiEvent := urid_map LV2_MIDI__MidiEvent,
        patch_Set := urid_map LV2_PATCH__Set,
        patch_property := urid_map LV2_PATCH__property,
        patch_value := urid_map LV2_PATCH__value }
    | none => junk.mCoreURIs
  let mParamIDMap : List (Nat × Int) :=
    match found.2 with
    | some urid_map => mapParams urid_map config.PLUG_URI nParams
    | none => []
  SetBlockSize
    { mCoreURIs := mCoreURIs,
      mParamIDMap := mParamIDMap,
      mPorts := (List.range 2).map junk.mPorts,
      mIOPorts := (List.range (nInputs + nOutputs)).map junk.mIOPorts,
      mControlPorts := (List.range nParams).map junk.mControlPorts,
      mBlockSize := 0,
      mFirstActivate := true,
      params := config.params,
      nInputs := nInputs,
      nOutputs := nOutputs,
      controlPorts := config.controlPorts,
      trace := [] }
    block_size

/-- A build configuration with two parameters, one input and one output. -/
def config2 : Config :=
  { PLUG_URI := "urn:example:plug", DEFAULT_BLOCK_SIZE := 1024, nInputs := 1, nOutputs := 1,
    params := [0, 0], controlPorts := false }

/-- A feature list without the URID map service: only an options array that
offers a block length of 256. -/
def infoWithoutMap : InstanceInfo :=
  { rate := 44100,
    features := some
      [{ URI := LV2_OPTIONS__options,
         data := FeatureData.options
           [{ key := 7, size := 4, value := some 256 }, { key := 0, size := 0, value := none }] }] }

/-- Storage in which the members of `mCoreURIs` hold the identifiers
`scenarioURIs`, and the pointer tables hold null. -/
def leftover : Indeterminate :=
  { mCoreURIs := scenarioURIs, mPorts := fun _ => 0, mIOPorts := fun _ => 0,
    mControlPorts := fun _ => 0 }

/-- The host-sourced parameter notifications of the event loop in a trace, in
order: index and offset of each `OnParamChange(i, kHost, offset)` call. -/
def hostChanges (tr : List Call) : List (Int × Int) :=
  tr.filterMap fun c =>
    match c with
    | Call.OnParamChange i EParamSource.kHost (some off) => some (i, off)
    | _ => none

/-! ## Observations on the control port loop -/

/-- The value the control port loop applies to parameter `i`: the value behind
control port `i` when the port is non-null and its value differs from the stored
one (`none`: nothing to apply). -/
def syncValue (mem : HostMemory) (s : IPlugLV2DSP) (i : Nat) : Option ℚ :=
  match s.mControlPorts[i]?, s.params[i]? with
  | some p, some cur =>
    if p = 0 then none
    else
      match derefFloat mem p with
      | .ok v => if cur ≠ v then some v else none
      | .error _ => none
  | _, _ => none

/-- The notifications of the control port loop in a trace, in order: the
parameter index of each two-argument `OnParamChange(i, kHost)` call. -/
def syncCalls (tr : List Call) : List Int :=
  tr.filterMap fun c =>
    match c with
    | Call.OnParamChange i EParamSource.kHost none => some i
    | _ => none

/-- The state of `run` at the head of the event loop (after the block size
guard and the two `AttachBuffers` calls, lines 212 to 226). -/
def run_prologue (s : IPlugLV2DSP) (n_samples : Nat) : IPlugLV2DSP :=
  let g := run_blockSizeGuard s n_samples
  emit
    (emit g (Call.AttachBuffers ERoute.kInput 0 s.nInputs (g.mIOPorts.take s.nInputs)
      (toInt32 n_samples)))
    (Call.AttachBuffers ERoute.kOutput 0 s.nOutputs
      ((g.mIOPorts.drop s.nInputs).take s.nOutputs) (toInt32 n_samples))

/-- The `ProcessBlock` call that ends `run` (line 303). -/
def run_processBlock (s : IPlugLV2DSP) (n_samples : Nat) : Call :=
  let g := run_blockSizeGuard s n_samples
  Call.ProcessBlock (g.mIOPorts.take s.nInputs) ((g.mIOPorts.drop s.nInputs).take s.nOutputs)
    (toInt32 n_samples)

/-! ## Offending events -/

/-- An event the event loop has no use for, on an instance whose core
identifiers are `u`: its tag is neither object nor raw MIDI; or it is an object
whose type is not patch-set; or it is a patch-set whose property is missing or
is not of the URID sub-type; or it is a patch-set with no value. -/
def Offending (u : CoreURIs) (ev : Event) : Prop :=
  (ev.type ≠ u.atom_Object ∧ ev.type ≠ u.midi_MidiEvent) ∨
  (ev.type = u.atom_Object ∧ ev.otype ≠ u.patch_Set) ∨
  (ev.type = u.atom_Object ∧ ev.otype = u.patch_Set ∧
    match lv2_atom_object_get ev.props u.patch_property with
    | none => True
    | some property => property.type ≠ u.atom_URID) ∨
  (ev.type = u.atom_Object ∧ ev.otype = u.patch_Set ∧
    lv2_atom_object_get ev.props u.patch_value = none)

instance (u : CoreURIs) (ev : Event) : Decidable (Offending u ev) := by
  unfold Offending
  cases lv2_atom_object_get ev.props u.patch_property <;> infer_instance

/-- An offending event that does not carry the object tag and the raw MIDI tag
at once: as `Offending`, except that the object whose type is not patch-set is
required not to be tagged raw MIDI as well.  On an instance whose object and
MIDI-event identifiers differ, no event carries both tags. -/
def OffendingNotBoth (u : CoreURIs) (ev : Event) : Prop :=
  (ev.type ≠ u.atom_Object ∧ ev.type ≠ u.midi_MidiEvent) ∨
  (ev.type = u.atom_Object ∧ ev.type ≠ u.midi_MidiEvent ∧ ev.otype ≠ u.patch_Set) ∨
  (ev.type = u.atom_Object ∧ ev.otype = u.patch_Set ∧
    match lv2_atom_object_get ev.props u.patch_property with
    | none => True
    | some property => property.type ≠ u.atom_URID) ∨
  (ev.type = u.atom_Object ∧ ev.otype = u.patch_Set ∧
    lv2_atom_object_get ev.props u.patch_value = none)

instance (u : CoreURIs) (ev : Event) : Decidable (OffendingNotBoth u ev) := by
  unfold OffendingNotBoth
  cases lv2_atom_object_get ev.props u.patch_property <;> infer_instance

/-- Storage that holds zero everywhere. -/
def zeroed : Indeterminate :=
  { mCoreURIs := { atom_Object := 0, atom_URID := 0, midi_MidiEvent := 0, patch_Set := 0,
                   patch_property := 0, patch_value := 0 },
    mPorts := fun _ => 0, mIOPorts := fun _ => 0, mControlPorts := fun _ => 0 }

/-- An event of tag 0 at frame 5 whose body reads as an object of type 9 and
as the MIDI bytes of a note-on. -/
def taggedBoth : Event :=
  { frames := 5, type := 0, otype := 9, props := [], msg0 := 0x90, msg1 := 60, msg2 := 100 }

/-- A patch-set object without a value. -/
def patchSetNoValue (frames : Int) (urid : Nat) : Event :=
  { frames := frames, type := 1, otype := 4,
    props := [(5, { type := 2, word := urid, value := 0 })],
    msg0 := 0, msg1 := 0, msg2 := 0 }

/-! ## The sample offset of a patch-set event -/

/-- The offset as the specification states it: `clamp(t, 0, n - 1)`. -/
def clampAsStated (t : Int) (n : Nat) : Int := max 0 (min t ((n : Int) - 1))

/-- The offset as lines 237 to 243 compute it: the frame time reduced to
`uint32_t`, then bounded above by `n - 1`. -/
def clampUInt32 (t : Int) (n : Nat) : Int := min (t % 4294967296) ((n : Int) - 1)

/-! ## The editor (lines 399 to 499) -/

/-- Calls the editor makes: the host's write function (`mHostWrite`) and the two
calls into the base class that `port_event` makes. -/
inductive EditorCall where
  | HostWrite (port_index buffer_size protocol : Nat) (value : ℚ)
  | SendParameterValueFromDelegate (paramIdx : Int) (value : ℚ) (normalized : Bool)
  | OnParamChange (paramIdx : Int) (source : EParamSource)
deriving DecidableEq

/-- The state of one `IPlugLV2Editor` instance: `mParameterPortOffset`, whether
`mHostWrite` is non-null, the parameter values, and the calls made so far. -/
structure IPlugLV2Editor where
  mParameterPortOffset : Int
  mHostWrite : Bool
  params : List ℚ
  trace : List EditorCall
deriving DecidableEq

/-- The constructor of the editor, as far as port numbering goes (line 409):
`mParameterPortOffset = totalNInChans + totalNOutChans`. -/
def constructEditor (totalNInChans totalNOutChans : Int) (write_function : Bool)
    (params : List ℚ) : IPlugLV2Editor :=
  { mParameterPortOffset := totalNInChans + totalNOutChans, mHostWrite := write_function,
    params := params, trace := [] }

/-- The method `IPlugLV2Editor::InformHostOfParamChange(int idx, double)`.
`GetParam(idx)` is null for an index out of range.  Line 468 narrows the
stored `double` to a `float` before the host sees it: `toFloat` is that
conversion (floating point is not modelled, so it is a parameter). -/
def InformHostOfParamChange (toFloat : ℚ → ℚ) (e : IPlugLV2Editor) (idx : Int) :
    Except Fault IPlugLV2Editor :=
  if idx < 0 then .error .nullDereference
  else
    match e.params[idx.toNat]? with
    | none => .error .nullDereference
    | some stored =>
      let value := toFloat stored
      let port_index := toUInt32 (e.mParameterPortOffset + idx)
      if e.mHostWrite then
        .ok { e with trace := e.trace ++ [EditorCall.HostWrite port_index 4 0 value] }
      else .ok e

/-- The method `IPlugLV2Editor::port_event(port_index, buffer_size, format, buffer)`;
`buffer` is the float behind the pointer (`none`: a null pointer).  The
difference `port_index - mParameterPortOffset` is stored in an `int`; when it
wraps to a negative index, `idx < NParams()` holds, `GetParam(idx)` is null and
`Set` is called through it. -/
def port_event (e : IPlugLV2Editor) (port_index buffer_size format : Nat) (buffer : Option ℚ) :
    Except Fault IPlugLV2Editor :=
  match buffer with
  | none => .ok e
  | some value =>
    if format = 0 ∧ buffer_size = 4 then
      if port_index ≥ toUInt32 e.mParameterPortOffset then
        let idx := toInt32 ((port_index : Int) - toUInt32 e.mParameterPortOffset)
        if idx < (e.params.length : Int) then
          if idx < 0 then .error .nullDereference
          else
            .ok { e with
                  params := e.params.set idx.toNat value,
                  trace := e.trace ++
                    [EditorCall.SendParameterValueFromDelegate idx value false,
                     EditorCall.OnParamChange idx EParamSource.kHost] }
        else .ok e
      else .ok e
    else .ok e

/-- The editor of the two-parameter plug-in: the channel totals equal the
`nInputs = 1` and `nOutputs = 1` of the DSP instance `twoParams`. -/
def editor2 : IPlugLV2Editor := constructEditor 1 1 true [0, 0]

/-! ## `descriptor` (lines 346 to 393) -/

/-- The constant `MAX_CONFIG_DIGITS` (line 25). -/
def MAX_CONFIG_DIGITS : Nat := 4

/-- The bytes of a C string: the bytes before the first NUL. -/
def cBytes (text : List Nat) : List Nat := text.takeWhile fun b => b ≠ 0

/-- The C library function `strlen`. -/
def strlen (text : List Nat) : Nat := (cBytes text).length

/-- Decimal digits of `i` in ASCII, most significant first, for at most `fuel`
digits. -/
def decimalAux : Nat → Nat → List Nat
  | 0, _ => []
  | fuel + 1, i => if i < 10 then [48 + i] else decimalAux fuel (i / 10) ++ [48 + i % 10]

/-- What `%d` prints for a non-negative `int` (which has at most 10 digits). -/
def decimal (i : Nat) : List Nat := decimalAux 10 i

/-- The text `snprintf` formats from `"%s#io_%d"`, `PLUG_URI` and `i` (line 369):
the bytes of `PLUG_URI`, then `#io_`, then `i` in decimal. -/
def formatURI (PLUG_URI : List Nat) (i : Nat) : List Nat :=
  cBytes PLUG_URI ++ [35, 105, 111, 95] ++ decimal i

/-- Overwrite the bytes of `buf` from offset `off` on. -/
def writeAt (buf : List Nat) (off : Nat) (bytes : List Nat) : List Nat :=
  buf.take off ++ bytes ++ buf.drop (off + bytes.length)

/-- The C library function `snprintf(buf + off, size, ...)` for the formatted
text `text`: at most `size - 1` bytes of the text are written, then a NUL
(nothing when `size` is 0); the result is the buffer and the return value, the
length of the whole text, NUL not counted. -/
def snprintf (buf : List Nat) (off size : Nat) (text : List Nat) : List Nat × Nat :=
  if size = 0 then (buf, text.length)
  else (writeAt buf off (text.take (size - 1) ++ [0]), text.length)

/-- One `LV2_Descriptor` of the table: its `URI` pointer, as an offset into
`sUriBuf`, and its `instantiate` function (the other members are the same
callbacks in every entry). -/
structure LV2_Descriptor where
  URI : Nat
  instantiate : Nat
deriving DecidableEq

/-- The two static buffers: `sDescriptors` and `sUriBuf`. -/
structure Statics where
  sDescriptors : List LV2_Descriptor
  sUriBuf : List Nat
deriving DecidableEq

/-- The state of the fill loop (lines 364 to 381): the statics and `urip`, as an
offset into `sUriBuf`. -/
structure FillState where
  sDescriptors : List LV2_Descriptor
  sUriBuf : List Nat
  urip : Nat
deriving DecidableEq

/-- One iteration of the fill loop (lines 369 to 380).  `uripEnd - urip` is the
room left; were `urip` past the end, the difference would be negative, hence a
huge `size_t`, and `snprintf` would write past the buffer. -/
def descriptor_fillStep (PLUG_URI : List Nat) (instantiate : Nat) (st : FillState) (i : Nat) :
    Except Fault FillState :=
  if st.urip ≤ st.sUriBuf.length then
    let r := snprintf st.sUriBuf st.urip (st.sUriBuf.length - st.urip) (formatURI PLUG_URI i)
    let uriLen := r.2
    .ok { sDescriptors := st.sDescriptors ++ [{ URI := st.urip, instantiate := instantiate }],
          sUriBuf := r.1,
          urip := st.urip + uriLen }
  else .error .outOfBounds

/-- The method `IPlugLV2DSP::descriptor(uint32_t index, LV2_InstantiateFn instantiate)`,
a function of the statics.  `PLUG_URI` is the macro of `config.h`, `nIOConfigs`
the number of configurations `ParseChannelIOStr` finds in `PLUG_CHANNEL_IO`, and
`fresh` the content of the storage `Resize` hands out (none of the three is
among the sources).  The result is the entry returned (`none`: `nullptr`) and
the statics afterwards. -/
def descriptor (PLUG_URI : List Nat) (nIOConfigs : Nat) (fresh : Nat → Nat) (st : Statics)
    (index : Nat) (instantiate : Nat) : Except Fault (Option LV2_Descriptor × Statics) :=
  let built : Except Fault Statics :=
    if st.sDescriptors.length = 0 then
      let size := (strlen PLUG_URI + MAX_CONFIG_DIGITS + 6) * nIOConfigs
      let buf := (List.range size).map fresh
      match (List.range nIOConfigs).foldlM (descriptor_fillStep PLUG_URI instantiate)
          { sDescriptors := st.sDescriptors, sUriBuf := buf, urip := 0 } with
      | .error f => .error f
      | .ok fs => .ok { sDescriptors := fs.sDescriptors, sUriBuf := fs.sUriBuf }
    else .ok st
  match built with
  | .error f => .error f
  | .ok st =>
    if index < st.sDescriptors.length then .ok (st.sDescriptors[index]?, st)
    else .ok (none, st)

/-- The NUL-terminated string at offset `off` of a buffer (`none`: no NUL
follows within the buffer). -/
def cString (buf : List Nat) (off : Nat) : Option (List Nat) :=
  if 0 ∈ buf.drop off then some ((buf.drop off).takeWhile fun b => b ≠ 0) else none

/-- The statics before the first call of `descriptor`: both buffers empty. -/
def noStatics : Statics := { sDescriptors := [], sUriBuf := [] }

/-- The bytes of the text `urn:x`, a plug-in URI. -/
def urnX : List Nat := [117, 114, 110, 58, 120]


/-! ## `binary_find` (lines 27 to 44) -/

/-- The loop of `binary_find` with `size_t` of `w` bits, for at most `fuel`
iterations (`none`: more iterations are needed).  `ar` is the array the pointer
`ar` points into; reading `ar[mid]` outside of it is a fault. -/
def binary_find_loop {α : Type} (w : Nat) (ar : List α) (test : α) (comp : α → α → Int) :
    Nat → Nat → Nat → Option (Except Fault Int)
  | 0, _, _ => none
  | fuel + 1, lo, hi =>
    if lo ≤ hi then
      let mid := (lo + ((hi + 2 ^ w - lo) % 2 ^ w) / 2) % 2 ^ w
      match ar[mid]? with
      | none => some (.error .outOfBounds)
      | some x =>
        let r := comp x test
        if r < 0 then binary_find_loop w ar test comp fuel ((mid + 1) % 2 ^ w) hi
        else if r > 0 then binary_find_loop w ar test comp fuel lo ((mid + 2 ^ w - 1) % 2 ^ w)
        else some (.ok (toInt32 mid))
    else some (.ok (toInt32 (-(toInt32 hi))))

/-- The function template `binary_find(ar, len, test, comp)`. -/
def binary_find {α : Type} (w : Nat) (ar : List α) (len : Nat) (test : α)
    (comp : α → α → Int) (fuel : Nat) : Option (Except Fault Int) :=
  binary_find_loop w ar test comp fuel 0 ((len + 2 ^ w - 1) % 2 ^ w)

/-- A three-way comparator of integers. -/
def compareInt (a b : Int) : Int := if a < b then -1 else if a > b then 1 else 0

/-! ## Theorems -/

/-- C7: `connect_port` is idempotent: for every instance state, slot index and
pointer, binding the same pointer to the same slot twice leaves the same state
(hence the same PortTable) as binding it once. -/
theorem connect_port_idempotent (s : IPlugLV2DSP) (port data : Nat) :
    connect_port (connect_port s port data) port data = connect_port s port data := by
  unfold connect_port
  by_cases h1 : port < s.mPorts.length
  · simp [h1]
  · by_cases h2 : port - s.mPorts.length < s.mIOPorts.length
    · simp [h1, h2]
    · by_cases h3 : port - s.mPorts.length - s.mIOPorts.length < s.mControlPorts.length
      · simp [h1, h2, h3]
      · simp [h1, h2, h3]

/-- C8: on an instance whose port tables have the sizes the constructor
allocates (2, nIn + nOut, nParams), `connect_port slot p` writes `p` (null
included) into exactly one entry chosen by fixed boundaries: event port `slot`
when `slot < 2`; audio port `slot - 2` when `2 ≤ slot < 2 + nIn + nOut`; control
port `slot - 2 - nIn - nOut` when `2 + nIn + nOut ≤ slot < 2 + nIn + nOut + nParams`;
nothing else changes, and a slot at or beyond the last boundary changes
nothing at all. -/
theorem connect_port_regions (s : IPlugLV2DSP) (slot p : Nat) (h : s.PortsSized) :
    (slot < 2 → connect_port s slot p = { s with mPorts := s.mPorts.set slot p }) ∧
    (2 ≤ slot → slot < 2 + s.nInputs + s.nOutputs →
      connect_port s slot p = { s with mIOPorts := s.mIOPorts.set (slot - 2) p }) ∧
    (2 + s.nInputs + s.nOutputs ≤ slot → slot < 2 + s.nInputs + s.nOutputs + s.NParams →
      connect_port s slot p =
        { s with mControlPorts := s.mControlPorts.set (slot - 2 - s.nInputs - s.nOutputs) p }) ∧
    (2 + s.nInputs + s.nOutputs + s.NParams ≤ slot → connect_port s slot p = s) := by
  obtain ⟨hp, hia, hc⟩ := h
  refine ⟨?_, ?_, ?_, ?_⟩
  · intro h1
    simp [connect_port, hp, h1]
  · intro h1 h2
    have : ¬ slot < 2 := by omega
    have h3 : slot - 2 < s.nInputs + s.nOutputs := by omega
    simp [connect_port, hp, hia, this, h3]
  · intro h1 h2
    have : ¬ slot < 2 := by omega
    have h3 : ¬ slot - 2 < s.nInputs + s.nOutputs := by omega
    have h4 : slot - 2 - (s.nInputs + s.nOutputs) < s.NParams := by omega
    have h5 : slot - 2 - (s.nInputs + s.nOutputs) = slot - 2 - s.nInputs - s.nOutputs := by omega
    simp only [connect_port, hp, hia, hc]
    rw [if_neg this, if_neg h3, if_pos h4, h5]
  · intro h1
    have : ¬ slot < 2 := by omega
    have h3 : ¬ slot - 2 < s.nInputs + s.nOutputs := by omega
    have h4 : ¬ slot - 2 - (s.nInputs + s.nOutputs) < s.NParams := by omega
    simp only [connect_port, hp, hia, hc]
    rw [if_neg this, if_neg h3, if_neg h4]


/-! ### Frame lemmas for the loop bodies -/

theorem midiCalls_append (a b : List Call) : midiCalls (a ++ b) = midiCalls a ++ midiCalls b := by
  simp [midiCalls, List.filterMap_append]

theorem run_object_frame (s s1 : IPlugLV2DSP) (n : Nat) (ev : Event)
    (h : run_object s n ev = some s1) :
    s1 = { s with mParamIDMap := s1.mParamIDMap, trace := s1.trace } ∧
      midiCalls s1.trace = midiCalls s.trace ∧
      (ev.type ≠ s.mCoreURIs.atom_Object → s1 = s) := by
  unfold run_object at h
  split at h
  · rename_i h1
    split at h
    · split at h
      · cases h
      · split at h
        · cases h
        · split at h
          · cases h
          · cases h
            refine ⟨rfl, ?_, fun hc => absurd h1 hc⟩
            simp [emit, midiCalls_append, midiCalls]
    · cases h
      exact ⟨rfl, rfl, fun _ => rfl⟩
  · cases h
    exact ⟨rfl, rfl, fun _ => rfl⟩

theorem run_object_none (s : IPlugLV2DSP) (n : Nat) (ev : Event)
    (h : run_object s n ev = none) : ev.type = s.mCoreURIs.atom_Object := by
  unfold run_object at h
  split at h
  · assumption
  · cases h

theorem run_midi_frame (s : IPlugLV2DSP) (ev : Event) :
    run_midi s ev = { s with trace := (run_midi s ev).trace } ∧
      midiCalls (run_midi s ev).trace =
        midiCalls s.trace ++
          (if isNoteEvent s.mCoreURIs ev then [(toInt32 ev.frames, ev.msg0, ev.msg1, ev.msg2)]
           else []) := by
  unfold run_midi isNoteEvent
  by_cases h1 : ev.type = s.mCoreURIs.midi_MidiEvent
  · by_cases h2 : lv2_midi_message_type ev.msg0 = LV2_MIDI_MSG_NOTE_ON ∨
        lv2_midi_message_type ev.msg0 = LV2_MIDI_MSG_NOTE_OFF
    · rw [if_pos h1]
      constructor
      · simp only [if_pos h2]; rfl
      · rcases h2 with h2 | h2 <;> simp [emit, midiCalls_append, midiCalls, h1, h2]
    · rw [if_pos h1]
      have h3 := not_or.mp h2
      constructor
      · simp only [if_neg h2]
      · simp [h3.1, h3.2]
  · rw [if_neg h1]
    constructor
    · rfl
    · simp [h1]


theorem run_event_frame (n : Nat) (s : IPlugLV2DSP) (ev : Event) :
    run_event n s ev =
      { s with mParamIDMap := (run_event n s ev).mParamIDMap, trace := (run_event n s ev).trace } := by
  unfold run_event
  cases h : run_object s n ev with
  | none => rfl
  | some s1 =>
    have h1 := (run_object_frame s s1 n ev h).1
    have h2 := (run_midi_frame s1 ev).1
    simp only
    rw [h2]
    rw [h1]

theorem run_event_midi (n : Nat) (s : IPlugLV2DSP) (ev : Event)
    (hne : s.mCoreURIs.atom_Object ≠ s.mCoreURIs.midi_MidiEvent) :
    midiCalls (run_event n s ev).trace =
      midiCalls s.trace ++
        (if isNoteEvent s.mCoreURIs ev then [(toInt32 ev.frames, ev.msg0, ev.msg1, ev.msg2)]
         else []) := by
  unfold run_event
  cases h : run_object s n ev with
  | none =>
    have h1 := run_object_none s n ev h
    have h2 : ev.type ≠ s.mCoreURIs.midi_MidiEvent := fun hc => hne (h1.symm.trans hc)
    simp [isNoteEvent, h2]
  | some s1 =>
    obtain ⟨h1, h2, _⟩ := run_object_frame s s1 n ev h
    have h3 : s1.mCoreURIs = s.mCoreURIs := by rw [h1]
    have h4 := (run_midi_frame s1 ev).2
    simp only
    rw [h4, h2, h3]

theorem run_events_frame (n : Nat) (evs : List Event) (s : IPlugLV2DSP) :
    run_events s n evs =
      { s with mParamIDMap := (run_events s n evs).mParamIDMap,
               trace := (run_events s n evs).trace } := by
  induction evs generalizing s with
  | nil => rfl
  | cons ev evs ih =>
    have h1 : run_events s n (ev :: evs) = run_events (run_event n s ev) n evs := rfl
    rw [h1]
    have h2 := ih (run_event n s ev)
    have h3 := run_event_frame n s ev
    rw [h2, h3]

theorem run_events_midi (n : Nat) (evs : List Event) (s : IPlugLV2DSP)
    (hne : s.mCoreURIs.atom_Object ≠ s.mCoreURIs.midi_MidiEvent) :
    midiCalls (run_events s n evs).trace = midiCalls s.trace ++ relayInt32 s.mCoreURIs evs := by
  induction evs generalizing s with
  | nil => simp [run_events, relayInt32]
  | cons ev evs ih =>
    have h1 : run_events s n (ev :: evs) = run_events (run_event n s ev) n evs := rfl
    have h3 : (run_event n s ev).mCoreURIs = s.mCoreURIs := by rw [run_event_frame n s ev]
    rw [h1, ih (run_event n s ev) (by rw [h3]; exact hne), h3, run_event_midi n s ev hne]
    by_cases hn : isNoteEvent s.mCoreURIs ev <;> simp [relayInt32, hn]


theorem run_controlPort_frame (mem : HostMemory) (s t : IPlugLV2DSP) (i : Nat)
    (h : run_controlPort mem s i = .ok t) :
    t = { s with params := t.params, trace := t.trace } ∧
      t.params.length = s.params.length ∧ midiCalls t.trace = midiCalls s.trace := by
  unfold run_controlPort at h
  split at h
  · cases h
  · split at h
    · split at h
      · cases h
      · split at h
        · cases h
        · split at h
          · cases h
            refine ⟨rfl, ?_, ?_⟩
            · simp [emit, IParam_Set]
            · simp [emit, IParam_Set, midiCalls_append, midiCalls]
          · cases h
            exact ⟨rfl, rfl, rfl⟩
    · cases h
      exact ⟨rfl, rfl, rfl⟩

theorem foldlM_controlPort_frame (mem : HostMemory) (l : List Nat) (s t : IPlugLV2DSP)
    (h : l.foldlM (run_controlPort mem) s = .ok t) :
    t = { s with params := t.params, trace := t.trace } ∧
      t.params.length = s.params.length ∧ midiCalls t.trace = midiCalls s.trace := by
  induction l generalizing s with
  | nil =>
    simp only [List.foldlM, pure, Except.pure] at h
    cases h
    exact ⟨rfl, rfl, rfl⟩
  | cons i l ih =>
    simp only [List.foldlM, bind, Except.bind] at h
    cases h1 : run_controlPort mem s i with
    | error f => rw [h1] at h; cases h
    | ok s1 =>
      rw [h1] at h
      obtain ⟨a1, a2, a3⟩ := run_controlPort_frame mem s s1 i h1
      obtain ⟨b1, b2, b3⟩ := ih s1 h
      refine ⟨?_, b2.trans a2, b3.trans a3⟩
      rw [b1, a1]

theorem foldlM_controlPort_ok (mem : HostMemory) (l : List Nat) (s : IPlugLV2DSP)
    (h : ∀ i ∈ l, i < s.params.length ∧
      ∃ p, s.mControlPorts[i]? = some p ∧ (p = 0 ∨ ∃ v, derefFloat mem p = .ok v)) :
    ∃ t, l.foldlM (run_controlPort mem) s = .ok t := by
  induction l generalizing s with
  | nil => exact ⟨s, rfl⟩
  | cons i l ih =>
    obtain ⟨hi, p, hp, hv⟩ := h i (List.mem_cons_self i l)
    have h1 : ∃ s1, run_controlPort mem s i = .ok s1 := by
      unfold run_controlPort
      rw [hp]
      rcases hv with hv | ⟨v, hv⟩
      · subst hv
        exact ⟨s, by simp⟩
      · by_cases hp0 : p = 0
        · subst hp0
          exact ⟨s, by simp⟩
        · obtain ⟨cur, hcur⟩ : ∃ cur, s.params[i]? = some cur :=
            ⟨s.params[i], List.getElem?_eq_getElem hi⟩
          simp only [hv, hcur, hp0, ne_eq, not_false_eq_true, if_true]
          by_cases hc : cur = v
          · exact ⟨s, by simp [hc]⟩
          · exact ⟨emit (IParam_Set s i v) (Call.OnParamChange i EParamSource.kHost none),
              by simp only [hc, not_false_eq_true, if_true]⟩
    obtain ⟨s1, hs1⟩ := h1
    obtain ⟨a1, a2, _⟩ := run_controlPort_frame mem s s1 i hs1
    have hc : s1.mControlPorts = s.mControlPorts := by rw [a1]
    obtain ⟨t, ht⟩ := ih s1 (by
      intro j hj
      obtain ⟨hj1, hj2⟩ := h j (List.mem_cons_of_mem i hj)
      rw [a2, hc]
      exact ⟨hj1, hj2⟩)
    refine ⟨t, ?_⟩
    simp only [List.foldlM, bind, Except.bind, hs1]
    exact ht


theorem run_blockSizeGuard_frame (s : IPlugLV2DSP) (n : Nat) :
    run_blockSizeGuard s n =
        { s with mBlockSize := (run_blockSizeGuard s n).mBlockSize,
                 trace := (run_blockSizeGuard s n).trace } ∧
      midiCalls (run_blockSizeGuard s n).trace = midiCalls s.trace := by
  unfold run_blockSizeGuard
  by_cases h : toUInt32 s.mBlockSize < n
  · rw [if_pos h]
    exact ⟨rfl, by simp [SetBlockSize, midiCalls_append, midiCalls]⟩
  · rw [if_neg h]
    exact ⟨rfl, rfl⟩

/-- What `run` returns, in terms of its stages. -/
theorem run_stages (s : IPlugLV2DSP) (mem : HostMemory) (n : Nat) (s' : IPlugLV2DSP)
    (h : run s mem n = .ok s') :
    ∃ p q s0 s2, s.mPorts[0]? = some p ∧ derefSequence mem p = .ok q ∧
      s0 = { run_blockSizeGuard s n with trace := s0.trace } ∧
      midiCalls s0.trace = midiCalls s.trace ∧
      (if (run_events s0 n q.events).controlPorts then run_controlPorts mem (run_events s0 n q.events)
        else .ok (run_events s0 n q.events)) = .ok s2 ∧
      s' = { s2 with trace := s'.trace } ∧ midiCalls s'.trace = midiCalls s2.trace := by
  unfold run at h
  simp only at h
  split at h
  · cases h
  · rename_i port0 hport
    split at h
    · cases h
    · rename_i q hq
      split at h
      · cases h
      · rename_i s2 hs2
        cases h
        have hg := (run_blockSizeGuard_frame s n).1
        refine ⟨port0, q, _, s2, ?_, hq, ?_, ?_, hs2, rfl, ?_⟩
        · rw [← hport]; simp only [emit]; rw [hg]
        · rfl
        · have h2 := (run_blockSizeGuard_frame s n).2
          simp only [emit, midiCalls_append, h2]
          simp [midiCalls]
        · simp [emit, midiCalls_append, midiCalls]


theorem run_controlStage_ok (s S0 : IPlugLV2DSP) (mem : HostMemory) (n : Nat) (evs : List Event)
    (hcp : ControlPortsReadable mem s)
    (e1 : S0.mControlPorts = s.mControlPorts) (e2 : S0.params = s.params)
    (e3 : S0.controlPorts = s.controlPorts) :
    ∃ t, (if (run_events S0 n evs).controlPorts then run_controlPorts mem (run_events S0 n evs)
        else .ok (run_events S0 n evs)) = .ok t := by
  have hf := run_events_frame n evs S0
  have f1 : (run_events S0 n evs).mControlPorts = s.mControlPorts := by rw [hf]; exact e1
  have f2 : (run_events S0 n evs).params = s.params := by rw [hf]; exact e2
  have f3 : (run_events S0 n evs).controlPorts = s.controlPorts := by rw [hf]; exact e3
  by_cases hc : (run_events S0 n evs).controlPorts = true
  · rw [if_pos hc]
    unfold run_controlPorts
    apply foldlM_controlPort_ok
    intro i hi
    have hi1 : i < s.NParams := by
      have := List.mem_range.mp hi
      simpa [IPlugLV2DSP.NParams, f2] using this
    rw [f1, f2]
    exact ⟨hi1, hcp (f3 ▸ hc) i hi1⟩
  · rw [if_neg hc]
    exact ⟨_, rfl⟩

/-- The state at the head of the event loop differs from the initial one in the
block size and the trace only. -/
theorem run_prologue_frame (s : IPlugLV2DSP) (n : Nat) (c1 c2 : Call) :
    emit (emit (run_blockSizeGuard s n) c1) c2 =
      { s with mBlockSize := (run_blockSizeGuard s n).mBlockSize,
               trace := (emit (emit (run_blockSizeGuard s n) c1) c2).trace } := by
  have hg := (run_blockSizeGuard_frame s n).1
  simp only [emit]
  rw [hg]

/-- A block whose event port is bound to a sequence and whose control ports are
readable runs to completion. -/
theorem run_returns (s : IPlugLV2DSP) (mem : HostMemory) (n p : Nat) (q : AtomSequence)
    (h0 : s.mPorts[0]? = some p) (hq : derefSequence mem p = .ok q)
    (hcp : ControlPortsReadable mem s) : ∃ s', run s mem n = .ok s' := by
  have e0 : ∀ c1 c2, (emit (emit (run_blockSizeGuard s n) c1) c2).mPorts = s.mPorts := by
    intro c1 c2; rw [run_prologue_frame]
  have e1 : ∀ c1 c2, (emit (emit (run_blockSizeGuard s n) c1) c2).mControlPorts =
      s.mControlPorts := by
    intro c1 c2; rw [run_prologue_frame]
  have e2 : ∀ c1 c2, (emit (emit (run_blockSizeGuard s n) c1) c2).params = s.params := by
    intro c1 c2; rw [run_prologue_frame]
  have e3 : ∀ c1 c2, (emit (emit (run_blockSizeGuard s n) c1) c2).controlPorts =
      s.controlPorts := by
    intro c1 c2; rw [run_prologue_frame]
  unfold run
  simp only [e0, h0, hq]
  obtain ⟨t, ht⟩ := run_controlStage_ok s _ mem n q.events hcp (e1 _ _) (e2 _ _) (e3 _ _)
  rw [ht]
  exact ⟨_, rfl⟩

theorem run_controlStage_frame (mem : HostMemory) (S t : IPlugLV2DSP)
    (h : (if S.controlPorts then run_controlPorts mem S else .ok S) = .ok t) :
    t = { S with params := t.params, trace := t.trace } ∧ midiCalls t.trace = midiCalls S.trace := by
  by_cases hc : S.controlPorts = true
  · rw [if_pos hc] at h
    obtain ⟨a1, _, a3⟩ := foldlM_controlPort_frame mem _ S t h
    exact ⟨a1, a3⟩
  · rw [if_neg hc] at h
    cases h
    exact ⟨rfl, rfl⟩

theorem toInt32_of_range (x : Int) (h1 : -2147483648 ≤ x) (h2 : x < 2147483648) : toInt32 x = x := by
  unfold toInt32; omega

theorem relayInt32_eq_asStated (u : CoreURIs) (evs : List Event)
    (h : ∀ e ∈ evs, isNoteEvent u e = true → -2147483648 ≤ e.frames ∧ e.frames < 2147483648) :
    relayInt32 u evs = relayAsStated u evs := by
  unfold relayInt32 relayAsStated
  apply List.map_congr_left
  intro e he
  have he1 := List.mem_filter.mp he
  obtain ⟨a, b⟩ := h e he1.1 he1.2
  rw [toInt32_of_range e.frames a b]

/-- C5 (amended): on an instance whose object and MIDI-event type identifiers
differ, whose event port is bound to a sequence and whose control ports are
readable, `run` completes and the MIDI relay invocations it adds are, in storage
order and with no re-sorting, exactly one per raw-MIDI event whose leading
status byte classifies as note-on or note-off, carrying the event's three bytes
and its time-tag converted to a 32-bit `int`; when the time-tags of the note
events lie in [-2^31, 2^31) that is the event's own time-tag. -/
theorem run_relays_note_events (s : IPlugLV2DSP) (mem : HostMemory) (n p : Nat) (q : AtomSequence)
    (hne : s.mCoreURIs.atom_Object ≠ s.mCoreURIs.midi_MidiEvent)
    (h0 : s.mPorts[0]? = some p) (hq : derefSequence mem p = .ok q)
    (hcp : ControlPortsReadable mem s) :
    ∃ s', run s mem n = .ok s' ∧
      midiCalls s'.trace = midiCalls s.trace ++ relayInt32 s.mCoreURIs q.events ∧
      ((∀ e ∈ q.events, isNoteEvent s.mCoreURIs e = true →
          -2147483648 ≤ e.frames ∧ e.frames < 2147483648) →
        midiCalls s'.trace = midiCalls s.trace ++ relayAsStated s.mCoreURIs q.events) := by
  obtain ⟨s', hs'⟩ := run_returns s mem n p q h0 hq hcp
  obtain ⟨p', q', s0, s2, a1, a2, a3, a4, a5, _, a7⟩ := run_stages s mem n s' hs'
  have ep : p' = p := Option.some.inj (a1.symm.trans h0)
  subst ep
  have eq : q' = q := by
    have := a2.symm.trans hq
    cases this
    rfl
  subst eq
  have hu : s0.mCoreURIs = s.mCoreURIs := by
    rw [a3, (run_blockSizeGuard_frame s n).1]
  have b1 := (run_controlStage_frame mem _ s2 a5).2
  have b2 := run_events_midi n q'.events s0 (by rw [hu]; exact hne)
  have main : midiCalls s'.trace = midiCalls s.trace ++ relayInt32 s.mCoreURIs q'.events := by
    rw [a7, b1, b2, a4, hu]
  refine ⟨s', hs', main, fun hr => ?_⟩
  rw [main, relayInt32_eq_asStated _ _ hr]

/-- C6 (amended): for every sample count `n < 2^31` and every current maximum
`m` with `0 ≤ m < 2^31`, the block size guard calls `SetBlockSize(n)`, leaving the
maximum equal to `n`, when `n > m`, and leaves the state unchanged (no call)
when `n ≤ m`; afterwards the maximum is at least `n`, and the rest of `run` does
not change it. -/
theorem run_blockSizeGuard_spec (s : IPlugLV2DSP) (n : Nat)
    (hn : n < 2147483648) (hm0 : 0 ≤ s.mBlockSize) (hm1 : s.mBlockSize < 2147483648) :
    (s.mBlockSize < n → run_blockSizeGuard s n = SetBlockSize s n ∧
        (run_blockSizeGuard s n).mBlockSize = n) ∧
    ((n : Int) ≤ s.mBlockSize → run_blockSizeGuard s n = s) ∧
    (n : Int) ≤ (run_blockSizeGuard s n).mBlockSize ∧
    (∀ mem s', run s mem n = .ok s' → s'.mBlockSize = (run_blockSizeGuard s n).mBlockSize) := by
  have hu : toUInt32 s.mBlockSize = s.mBlockSize.toNat := by unfold toUInt32; omega
  have hi : toInt32 (n : Int) = n := toInt32_of_range n (by omega) (by omega)
  have c1 : s.mBlockSize < n → run_blockSizeGuard s n = SetBlockSize s n := by
    intro h
    have : toUInt32 s.mBlockSize < n := by rw [hu]; omega
    unfold run_blockSizeGuard
    rw [if_pos this, hi]
  have c2 : (n : Int) ≤ s.mBlockSize → run_blockSizeGuard s n = s := by
    intro h
    have : ¬ toUInt32 s.mBlockSize < n := by rw [hu]; omega
    unfold run_blockSizeGuard
    rw [if_neg this]
  refine ⟨fun h => ⟨c1 h, by rw [c1 h]; rfl⟩, c2, ?_, ?_⟩
  · by_cases h : s.mBlockSize < n
    · rw [c1 h]; exact le_of_eq rfl
    · rw [c2 (by omega)]; omega
  · intro mem s' hs'
    obtain ⟨p', q', s0, s2, _, _, a3, _, a5, a6, _⟩ := run_stages s mem n s' hs'
    have b1 := (run_controlStage_frame mem _ s2 a5).1
    have b2 := run_events_frame n q'.events s0
    rw [a6, b1, b2, a3]


/-- Without `LV2_CONTROL_PORTS`, a completed `run` leaves every parameter value
as it was, whatever the input events carry. -/
theorem run_params_unchanged (s : IPlugLV2DSP) (mem : HostMemory) (n : Nat) (s' : IPlugLV2DSP)
    (hc : s.controlPorts = false) (h : run s mem n = .ok s') : s'.params = s.params := by
  obtain ⟨p', q', s0, s2, _, _, a3, _, a5, a6, _⟩ := run_stages s mem n s' h
  have b2 := run_events_frame n q'.events s0
  have hc0 : s0.controlPorts = false := by
    rw [a3, (run_blockSizeGuard_frame s n).1]; exact hc
  have hc1 : (run_events s0 n q'.events).controlPorts = false := by rw [b2]; exact hc0
  rw [hc1] at a5
  cases a5
  rw [a6, b2, a3, (run_blockSizeGuard_frame s n).1]

/-! ### The code at concrete inputs -/

/-- C1 (the code at the failing input): in the scenario of the specification
(Par0 and Par1 both 0, a 64-sample block with a patch-set event for Par0
carrying 0.75 and a note-on) `run` completes, notifies a change of parameter 0
and relays the note, yet leaves the parameter store as it was: Par0 is still 0,
not 0.75. -/
theorem run_scenario_value_not_stored :
    ParamIDMap_find twoParams.mParamIDMap 10 = some 0 ∧
      ∃ s', run twoParams (hostWith scenarioEvents) 64 = .ok s' ∧
        s'.params = [0, 0] ∧ s'.params[0]? ≠ some (3 / 4) ∧
        s'.trace = [Call.AttachBuffers ERoute.kInput 0 1 [3000] 64,
                    Call.AttachBuffers ERoute.kOutput 0 1 [4000] 64,
                    Call.OnParamChange 0 EParamSource.kHost (some 10),
                    Call.ProcessMidiMsg 20 0x90 60 100,
                    Call.ProcessBlock [3000] [4000] 64] := by
  refine ⟨rfl, { twoParams with
      trace := [Call.AttachBuffers ERoute.kInput 0 1 [3000] 64,
                Call.AttachBuffers ERoute.kOutput 0 1 [4000] 64,
                Call.OnParamChange 0 EParamSource.kHost (some 10),
                Call.ProcessMidiMsg 20 0x90 60 100,
                Call.ProcessBlock [3000] [4000] 64] }, rfl, rfl, ?_, rfl⟩
  show ([0, 0] : List ℚ)[0]? ≠ some (3 / 4)
  norm_num

/-- C2 (the code at the failing input): with Par0 already holding 0.75, a
patch-set event for Par0 carrying 0.75 still makes `run` emit a host-sourced
change notification for parameter 0. -/
theorem run_unchanged_value_notifies :
    run { twoParams with params := [3 / 4, 0] } (hostWith [patchSet 10 10 (3 / 4)]) 64 =
      .ok { twoParams with
            params := [3 / 4, 0],
            trace := [Call.AttachBuffers ERoute.kInput 0 1 [3000] 64,
                      Call.AttachBuffers ERoute.kOutput 0 1 [4000] 64,
                      Call.OnParamChange 0 EParamSource.kHost (some 10),
                      Call.ProcessBlock [3000] [4000] 64] } := by
  rfl

/-- C3 (the code at the failing input): a patch-set event naming identifier
999, which is not a key of the identifier map, is not dropped: `run` emits a
host-sourced change notification for parameter 0 (and adds the key to the
map). -/
theorem run_unknown_identifier_notifies_param0 :
    ParamIDMap_find twoParams.mParamIDMap 999 = none ∧
      run twoParams (hostWith [patchSet 10 999 (3 / 4)]) 64 =
        .ok { twoParams with
              mParamIDMap := [(10, 0), (11, 1), (999, 0)],
              trace := [Call.AttachBuffers ERoute.kInput 0 1 [3000] 64,
                        Call.AttachBuffers ERoute.kOutput 0 1 [4000] 64,
                        Call.OnParamChange 0 EParamSource.kHost (some 10),
                        Call.ProcessBlock [3000] [4000] 64] } := by
  exact ⟨rfl, rfl⟩

/-- C4 (the code at the failing input): in a 64-sample block a note-on with
time-tag 100 reaches the MIDI relay with offset 100, not 63. -/
theorem run_midi_offset_not_clamped :
    run twoParams (hostWith [midiEvent 100 0x90 60 100]) 64 =
      .ok { twoParams with
            trace := [Call.AttachBuffers ERoute.kInput 0 1 [3000] 64,
                      Call.AttachBuffers ERoute.kOutput 0 1 [4000] 64,
                      Call.ProcessMidiMsg 100 0x90 60 100,
                      Call.ProcessBlock [3000] [4000] 64] } := by
  rfl

/-- C5 (counterexample): a note-on with time-tag 2^32 + 20 is relayed with
offset 20, so the relay invocations are not the ones the claim states (which
carry the event's own time-tag, 4294967316). -/
theorem run_relay_truncates_time_tag :
    ∃ s', run twoParams (hostWith [midiEvent 4294967316 0x90 60 100]) 64 = .ok s' ∧
      midiCalls s'.trace = [(20, 0x90, 60, 100)] ∧
      relayAsStated twoParams.mCoreURIs [midiEvent 4294967316 0x90 60 100] =
        [(4294967316, 0x90, 60, 100)] ∧
      midiCalls s'.trace ≠
        midiCalls twoParams.trace ++
          relayAsStated twoParams.mCoreURIs [midiEvent 4294967316 0x90 60 100] := by
  refine ⟨_, rfl, rfl, rfl, ?_⟩
  decide

/-- Witness of C5 (amended): the scenario block on the instance with control
ports. -/
theorem run_relays_note_events_witness :
    twoParamsControl.mCoreURIs.atom_Object ≠ twoParamsControl.mCoreURIs.midi_MidiEvent ∧
      twoParamsControl.mPorts[0]? = some 1000 ∧
      derefSequence (hostWith scenarioEvents) 1000 = .ok { size := 56, events := scenarioEvents } ∧
      ControlPortsReadable (hostWith scenarioEvents) twoParamsControl ∧
      ∃ s', run twoParamsControl (hostWith scenarioEvents) 64 = .ok s' ∧
        midiCalls s'.trace = [(20, 0x90, 60, 100)] := by
  have hne : twoParamsControl.mCoreURIs.atom_Object ≠ twoParamsControl.mCoreURIs.midi_MidiEvent := by
    decide
  have h0 : twoParamsControl.mPorts[0]? = some 1000 := rfl
  have hq : derefSequence (hostWith scenarioEvents) 1000 =
      .ok { size := 56, events := scenarioEvents } := rfl
  have hcp : ControlPortsReadable (hostWith scenarioEvents) twoParamsControl := by
    intro _ i hi
    have hi2 : i < 2 := hi
    match i, hi2 with
    | 0, _ => exact ⟨5000, rfl, Or.inr ⟨1 / 2, rfl⟩⟩
    | 1, _ => exact ⟨0, rfl, Or.inl rfl⟩
  obtain ⟨s', h1, h2, _⟩ :=
    run_relays_note_events twoParamsControl (hostWith scenarioEvents) 64 1000
      { size := 56, events := scenarioEvents } hne h0 hq hcp
  exact ⟨hne, h0, hq, hcp, s', h1, h2⟩

/-- C6 (counterexample): with maximum 128, the guard of `run(2^31)` leaves the
maximum at -2^31, which is neither 2^31 nor at least 2^31. -/
theorem run_blockSizeGuard_wraps :
    twoParams128.mBlockSize = 128 ∧
      (run_blockSizeGuard twoParams128 2147483648).mBlockSize = -2147483648 ∧
      ¬ ((2147483648 : Int) ≤ (run_blockSizeGuard twoParams128 2147483648).mBlockSize) := by
  refine ⟨rfl, rfl, ?_⟩
  decide

/-- Witness of C6 (amended): `run(256)` with maximum 128 raises the maximum to
256, and the guard of a following `run(200)` changes nothing. -/
theorem run_blockSizeGuard_spec_witness :
    (256 < 2147483648 ∧ 0 ≤ twoParams128.mBlockSize ∧ twoParams128.mBlockSize < 2147483648) ∧
      (run_blockSizeGuard twoParams128 256).mBlockSize = 256 ∧
      (200 < 2147483648 ∧ 0 ≤ (SetBlockSize twoParams128 256).mBlockSize ∧
        (SetBlockSize twoParams128 256).mBlockSize < 2147483648) ∧
      run_blockSizeGuard (SetBlockSize twoParams128 256) 200 = SetBlockSize twoParams128 256 :=
  ⟨⟨by decide, by decide, by decide⟩,
   ((run_blockSizeGuard_spec twoParams128 256 (by decide) (by decide) (by decide)).1
      (by decide)).2,
   ⟨by decide, by decide, by decide⟩,
   (run_blockSizeGuard_spec (SetBlockSize twoParams128 256) 200 (by decide) (by decide)
      (by decide)).2.1 (by decide)⟩

/-- Witness of C8: on the two-parameter instance (1 input, 1 output), slot 3
is audio port 1. -/
theorem connect_port_regions_witness :
    twoParams.PortsSized ∧
      connect_port twoParams 3 5000 = { twoParams with mIOPorts := twoParams.mIOPorts.set 1 5000 } :=
  ⟨by decide, (connect_port_regions twoParams 3 5000 (by decide)).2.1 (by decide) (by decide)⟩

/-- C9 (the code at the failing input): a patch-set event naming identifier
77, which is not a key of the identifier map, makes `run` add the entry
(77, 0): the map after `run` differs from the map before. -/
theorem run_unknown_identifier_grows_map :
    ∃ s', run twoParams (hostWith [patchSet 0 77 1]) 32 = .ok s' ∧
      ParamIDMap_find twoParams.mParamIDMap 77 = none ∧
      ParamIDMap_find s'.mParamIDMap 77 = some 0 ∧
      s'.mParamIDMap = [(10, 0), (11, 1), (77, 0)] ∧
      s'.mParamIDMap ≠ twoParams.mParamIDMap := by
  refine ⟨_, rfl, rfl, rfl, rfl, ?_⟩
  decide

/-- C10 (the code at the failing input): after `connect_port(0, nullptr)`, `run`
reads through the null event port and faults instead of treating the input as
empty; after `connect_port(1, nullptr)`, `SendMidiMsg` reads through the null
output port and faults. -/
theorem null_event_ports_fault :
    (connect_port twoParams 0 0).mPorts = [0, 2000] ∧
      run (connect_port twoParams 0 0) (hostWith []) 64 = .error Fault.nullDereference ∧
      (connect_port twoParams 1 0).mPorts = [1000, 0] ∧
      SendMidiMsg (connect_port twoParams 1 0) (hostWith [])
          { mOffset := 0, mStatus := 0x90, mData1 := 60, mData2 := 100 } =
        .error Fault.nullDereference := by
  exact ⟨rfl, rfl, rfl, rfl⟩


/-! ### Lifecycle -/

theorem resetCalls_append (a b : List Call) :
    resetCalls (a ++ b) = resetCalls a ++ resetCalls b := by
  simp [resetCalls, List.filterMap_append]

theorem activationCalls_append (a b : List Call) :
    activationCalls (a ++ b) = activationCalls a ++ activationCalls b := by
  simp [activationCalls, List.filterMap_append]

theorem resetCalls_fullReset (n : Nat) :
    resetCalls (fullReset n) = (List.range n).map fun (i : Nat) => (i : Int) := by
  unfold resetCalls fullReset
  rw [List.filterMap_map]
  rw [← List.filterMap_eq_map]
  rfl

theorem activationCalls_fullReset (n : Nat) : activationCalls (fullReset n) = [] := by
  unfold activationCalls fullReset
  rw [List.filterMap_map]
  apply List.filterMap_eq_nil_iff.mpr
  intro i _
  rfl

theorem foldl_emit_reset (l : List Nat) (s : IPlugLV2DSP) :
    l.foldl (fun (s : IPlugLV2DSP) (i : Nat) =>
        emit s (Call.OnParamChange (i : Int) EParamSource.kReset none)) s =
      { s with trace := s.trace ++
          l.map fun (i : Nat) => Call.OnParamChange (i : Int) EParamSource.kReset none } := by
  induction l generalizing s with
  | nil => simp
  | cons i l ih =>
    rw [List.foldl_cons, ih]
    simp [emit]

theorem activate_first (s : IPlugLV2DSP) (h : s.mFirstActivate = true) :
    activate s =
      { s with mFirstActivate := false,
               trace := s.trace ++ fullReset s.NParams ++ [Call.OnActivate true, Call.OnReset] } := by
  unfold activate
  simp only [h, if_true]
  rw [foldl_emit_reset]
  simp [emit, fullReset, IPlugLV2DSP.NParams]

theorem activate_later (s : IPlugLV2DSP) (h : s.mFirstActivate = false) :
    activate s = { s with trace := s.trace ++ [Call.OnActivate true, Call.OnReset] } := by
  unfold activate
  simp [h, emit]

theorem lifecycle_append (s : IPlugLV2DSP) (a b : List LifecycleCall) :
    lifecycle s (a ++ b) = lifecycle (lifecycle s a) b := by
  simp [lifecycle, List.foldl_append]

theorem lifecycle_cons (s : IPlugLV2DSP) (c : LifecycleCall) (cs : List LifecycleCall) :
    lifecycle s (c :: cs) =
      lifecycle (match c with
        | LifecycleCall.activate => activate s
        | LifecycleCall.deactivate => deactivate s) cs := rfl

/-- Once the first activation has happened, lifecycle calls emit no reset. -/
theorem lifecycle_activated (cs : List LifecycleCall) (s : IPlugLV2DSP)
    (h : s.mFirstActivate = false) :
    resetCalls (lifecycle s cs).trace = resetCalls s.trace ∧
      activationCalls (lifecycle s cs).trace =
        activationCalls s.trace ++ cs.map (fun c => decide (c = LifecycleCall.activate)) := by
  induction cs generalizing s with
  | nil => simp [lifecycle]
  | cons c cs ih =>
    rw [lifecycle_cons]
    cases c with
    | activate =>
      have h1 := activate_later s h
      have h2 : (activate s).mFirstActivate = false := by rw [h1]; exact h
      obtain ⟨a1, a2⟩ := ih (activate s) h2
      rw [a1, a2, h1]
      simp [resetCalls_append, activationCalls_append, resetCalls, activationCalls]
    | deactivate =>
      have h2 : (deactivate s).mFirstActivate = false := h
      obtain ⟨a1, a2⟩ := ih (deactivate s) h2
      rw [a1, a2]
      simp [deactivate, emit, resetCalls_append, activationCalls_append, resetCalls,
        activationCalls]

/-- Before the first activation, a run of deactivations emits only their signals. -/
theorem lifecycle_deactivations (pre : List LifecycleCall) (s : IPlugLV2DSP)
    (hpre : LifecycleCall.activate ∉ pre) :
    lifecycle s pre = { s with trace := s.trace ++ pre.map fun _ => Call.OnActivate false } := by
  induction pre generalizing s with
  | nil => simp [lifecycle]
  | cons c pre ih =>
    have hc : c ≠ LifecycleCall.activate := fun hc => hpre (hc ▸ List.mem_cons_self c pre)
    have hp : LifecycleCall.activate ∉ pre := fun hp => hpre (List.mem_cons_of_mem c hp)
    cases c with
    | activate => exact absurd rfl hc
    | deactivate =>
      rw [lifecycle_cons]
      simp only
      rw [ih (deactivate s) hp]
      simp [deactivate, emit]

/-- C11: on an instance that has not been activated yet (as the constructor
leaves it), for every sequence of `activate`/`deactivate` calls: the reset
notifications emitted are one per parameter ordinal `0 .. nParams - 1`, in order,
when the sequence contains an `activate`, and none otherwise; they are emitted
by the first `activate`, before its "activated" signal, and never again; and the
activation signals emitted are exactly one "activated" for each `activate` and
one "deactivated" for each `deactivate`, in call order. -/
theorem lifecycle_resets_once (s : IPlugLV2DSP) (h : s.mFirstActivate = true)
    (cs : List LifecycleCall) :
    resetCalls (lifecycle s cs).trace =
        resetCalls s.trace ++
          (if LifecycleCall.activate ∈ cs then (List.range s.NParams).map fun (i : Nat) => (i : Int)
           else []) ∧
      (∀ pre post, cs = pre ++ LifecycleCall.activate :: post → LifecycleCall.activate ∉ pre →
        (lifecycle s (pre ++ [LifecycleCall.activate])).trace =
            (lifecycle s pre).trace ++ fullReset s.NParams ++ [Call.OnActivate true, Call.OnReset] ∧
          resetCalls (lifecycle s pre).trace = resetCalls s.trace ∧
          resetCalls (lifecycle s cs).trace =
            resetCalls (lifecycle s (pre ++ [LifecycleCall.activate])).trace) ∧
      activationCalls (lifecycle s cs).trace =
        activationCalls s.trace ++ cs.map (fun c => decide (c = LifecycleCall.activate)) := by
  have key : ∀ pre post, cs = pre ++ LifecycleCall.activate :: post →
      LifecycleCall.activate ∉ pre →
      (lifecycle s (pre ++ [LifecycleCall.activate])).trace =
          (lifecycle s pre).trace ++ fullReset s.NParams ++ [Call.OnActivate true, Call.OnReset] ∧
        resetCalls (lifecycle s pre).trace = resetCalls s.trace ∧
        resetCalls (lifecycle s cs).trace =
          resetCalls (lifecycle s (pre ++ [LifecycleCall.activate])).trace ∧
        resetCalls (lifecycle s cs).trace =
          resetCalls s.trace ++ (List.range s.NParams).map (fun (i : Nat) => (i : Int)) ∧
        activationCalls (lifecycle s cs).trace =
          activationCalls s.trace ++ cs.map (fun c => decide (c = LifecycleCall.activate)) := by
    intro pre post hcs hpre
    have e1 := lifecycle_deactivations pre s hpre
    have f1 : (lifecycle s pre).mFirstActivate = true := by rw [e1]; exact h
    have n1 : (lifecycle s pre).NParams = s.NParams := by rw [e1]; rfl
    have e2 : lifecycle s (pre ++ [LifecycleCall.activate]) = activate (lifecycle s pre) := by
      rw [lifecycle_append]; rfl
    have e3 := activate_first (lifecycle s pre) f1
    have f2 : (activate (lifecycle s pre)).mFirstActivate = false := by rw [e3]
    have e4 : lifecycle s cs = lifecycle (activate (lifecycle s pre)) post := by
      rw [hcs, lifecycle_append, lifecycle_cons]
    obtain ⟨a1, a2⟩ := lifecycle_activated post _ f2
    have r1 : resetCalls (lifecycle s pre).trace = resetCalls s.trace := by
      rw [e1]
      simp only [resetCalls_append]
      have : resetCalls (pre.map fun _ => Call.OnActivate false) = [] := by
        unfold resetCalls
        rw [List.filterMap_map]
        apply List.filterMap_eq_nil_iff.mpr
        intro _ _; rfl
      rw [this, List.append_nil]
    have r2 : activationCalls (lifecycle s pre).trace =
        activationCalls s.trace ++ pre.map (fun c => decide (c = LifecycleCall.activate)) := by
      rw [e1]
      simp only [activationCalls_append]
      congr 1
      unfold activationCalls
      rw [List.filterMap_map, ← List.filterMap_eq_map]
      apply List.filterMap_congr
      intro c hc
      have : c ≠ LifecycleCall.activate := fun hh => hpre (hh ▸ hc)
      simp [this]
    refine ⟨?_, r1, ?_, ?_, ?_⟩
    · rw [e2, e3, n1]
    · rw [e4, a1, e2]
    · rw [e4, a1, e3]
      simp only [resetCalls_append, resetCalls_fullReset, r1, n1]
      simp [resetCalls]
    · rw [e4, a2, e3, hcs]
      simp only [activationCalls_append, activationCalls_fullReset, r2]
      simp [activationCalls]
  by_cases hm : LifecycleCall.activate ∈ cs
  · obtain ⟨pre, post, hcs, hpre⟩ := List.eq_append_cons_of_mem hm
    obtain ⟨_, _, _, k4, k5⟩ := key pre post hcs hpre
    refine ⟨?_, fun pre post hcs hpre => ?_, k5⟩
    · rw [if_pos hm]; exact k4
    · obtain ⟨j1, j2, j3, _, _⟩ := key pre post hcs hpre
      exact ⟨j1, j2, j3⟩
  · have e1 := lifecycle_deactivations cs s hm
    refine ⟨?_, fun pre post hcs _ => ?_, ?_⟩
    · rw [if_neg hm, e1]
      simp only [resetCalls_append, List.append_nil]
      have : resetCalls (cs.map fun _ => Call.OnActivate false) = [] := by
        unfold resetCalls
        rw [List.filterMap_map]
        apply List.filterMap_eq_nil_iff.mpr
        intro _ _; rfl
      rw [this, List.append_nil]
    · exact absurd (hcs ▸ List.mem_append_right pre (List.mem_cons_self _ post)) hm
    · rw [e1]
      simp only [activationCalls_append]
      congr 1
      unfold activationCalls
      rw [List.filterMap_map, ← List.filterMap_eq_map]
      apply List.filterMap_congr
      intro c hc
      have : c ≠ LifecycleCall.activate := fun hh => hm (hh ▸ hc)
      simp [this]

/-- Witness of C11: the calls activate, deactivate, activate on the two-parameter
plug-in, not yet activated. -/
theorem lifecycle_resets_once_witness :
    twoParamsFresh.mFirstActivate = true ∧
      resetCalls (lifecycle twoParamsFresh
          [LifecycleCall.activate, LifecycleCall.deactivate, LifecycleCall.activate]).trace =
        [0, 1] ∧
      activationCalls (lifecycle twoParamsFresh
          [LifecycleCall.activate, LifecycleCall.deactivate, LifecycleCall.activate]).trace =
        [true, false, true] := by
  have h := lifecycle_resets_once twoParamsFresh rfl
    [LifecycleCall.activate, LifecycleCall.deactivate, LifecycleCall.activate]
  exact ⟨rfl, h.1, h.2.2⟩

/-! ### Construction without the URID map service -/

theorem scanFeatures_without_map (features : List LV2_Feature)
    (h : ∀ f ∈ features, f.URI ≠ LV2_URID__map) : (scanFeatures features).2 = none := by
  unfold scanFeatures
  suffices H : ∀ (l : List LV2_Feature) (acc : Option (List LV2_Options_Option) × Option (String → Nat)),
      (∀ f ∈ l, f.URI ≠ LV2_URID__map) → acc.2 = none →
      (l.foldl
        (fun acc feature =>
          if feature.URI = LV2_OPTIONS__options then
            (match feature.data with
              | FeatureData.options opts => some opts
              | _ => none, acc.2)
          else if feature.URI = LV2_URID__map then
            (acc.1, match feature.data with
              | FeatureData.uridMap map => some map
              | _ => none)
          else acc) acc).2 = none from H features (none, none) h rfl
  intro l
  induction l with
  | nil => intro acc _ hacc; exact hacc
  | cons f l ih =>
    intro acc hl hacc
    rw [List.foldl_cons]
    apply ih
    · intro g hg; exact hl g (List.mem_cons_of_mem f hg)
    · have hf := hl f (List.mem_cons_self f l)
      by_cases h1 : f.URI = LV2_OPTIONS__options
      · simp only [h1, if_true]; exact hacc
      · simp only [h1, hf, if_false]; exact hacc

/-- An instance constructed from a feature list without the URID map service has
an empty identifier map and the default block size; its `mCoreURIs` members are
whatever the storage held. -/
theorem construct_without_map (info : InstanceInfo) (config : Config) (junk : Indeterminate)
    (h : ∀ features, info.features = some features → ∀ f ∈ features, f.URI ≠ LV2_URID__map) :
    (construct info config junk).mParamIDMap = [] ∧
      (construct info config junk).mBlockSize = config.DEFAULT_BLOCK_SIZE ∧
      (construct info config junk).mCoreURIs = junk.mCoreURIs ∧
      (construct info config junk).mFirstActivate = true ∧
      (construct info config junk).PortsSized := by
  have hf : (match info.features with
      | some features => scanFeatures features
      | none => (none, none)).2 = none := by
    cases hi : info.features with
    | none => rfl
    | some features => exact scanFeatures_without_map features (h features hi)
  unfold construct
  simp only [hf, SetBlockSize]
  refine ⟨trivial, ?_, trivial, trivial, ?_⟩
  · cases (match info.features with
      | some features => scanFeatures features
      | none => (none, none)).1 <;> rfl
  · simp [IPlugLV2DSP.PortsSized, IPlugLV2DSP.NParams]

/-- C12 (the code at the failing input): an instance constructed from a feature
list without the URID map service has an empty identifier map and the default
block size (1024, although the options offer 256), but its `mCoreURIs` members
were never assigned; when the storage holds the identifiers the host uses, a
patch-set event in the input of `run` is not dropped: a host-sourced change
notification for parameter 0 is emitted at offset 10. -/
theorem construct_without_map_still_notifies :
    (construct infoWithoutMap config2 leftover).mParamIDMap = [] ∧
      (construct infoWithoutMap config2 leftover).mBlockSize = 1024 ∧
      ∃ s', run (connect_port (construct infoWithoutMap config2 leftover) 0 1000)
          (hostWith [patchSet 10 10 (3 / 4)]) 64 = .ok s' ∧
        hostChanges s'.trace = [(0, 10)] ∧ s'.mParamIDMap = [(10, 0)] := by
  refine ⟨rfl, rfl, ?_⟩
  refine ⟨{ twoParams with
      mParamIDMap := [(10, 0)], mPorts := [1000, 0], mIOPorts := [0, 0], mBlockSize := 1024,
      mFirstActivate := true,
      trace := [Call.SetBlockSize 1024,
                Call.AttachBuffers ERoute.kInput 0 1 [0] 64,
                Call.AttachBuffers ERoute.kOutput 0 1 [0] 64,
                Call.OnParamChange 0 EParamSource.kHost (some 10),
                Call.ProcessBlock [0] [0] 64] }, rfl, rfl, rfl⟩

/-! ### The control port loop -/

theorem syncCalls_append (a b : List Call) :
    syncCalls (a ++ b) = syncCalls a ++ syncCalls b := by
  simp [syncCalls, List.filterMap_append]

/-- One iteration of the control port loop on a readable port. -/
theorem run_controlPort_eq (mem : HostMemory) (s : IPlugLV2DSP) (i : Nat)
    (hi : i < s.params.length)
    (hp : ∃ p, s.mControlPorts[i]? = some p ∧ (p = 0 ∨ ∃ v, derefFloat mem p = .ok v)) :
    run_controlPort mem s i =
      .ok (match syncValue mem s i with
        | some v => emit (IParam_Set s i v) (Call.OnParamChange i EParamSource.kHost none)
        | none => s) := by
  obtain ⟨p, hp1, hp2⟩ := hp
  obtain ⟨cur, hcur⟩ : ∃ cur, s.params[i]? = some cur :=
    ⟨s.params[i], List.getElem?_eq_getElem hi⟩
  unfold run_controlPort syncValue
  rw [hp1, hcur]
  by_cases h0 : p = 0
  · simp [h0]
  · rcases hp2 with hp2 | ⟨v, hv⟩
    · exact absurd hp2 h0
    · simp only [h0, hv, ne_eq, not_false_eq_true, if_true, if_false]
      by_cases hc : cur = v
      · simp [hc]
      · simp [hc]

theorem syncValue_congr (mem : HostMemory) (s t : IPlugLV2DSP) (j : Nat)
    (h1 : t.mControlPorts = s.mControlPorts) (h2 : t.params[j]? = s.params[j]?) :
    syncValue mem t j = syncValue mem s j := by
  unfold syncValue
  rw [h1, h2]

theorem foldlM_controlPort_eq (mem : HostMemory) (l : List Nat) (s : IPlugLV2DSP)
    (hnd : l.Nodup)
    (h : ∀ i ∈ l, i < s.params.length ∧
      ∃ p, s.mControlPorts[i]? = some p ∧ (p = 0 ∨ ∃ v, derefFloat mem p = .ok v)) :
    ∃ t, l.foldlM (run_controlPort mem) s = .ok t ∧
      (∀ j, t.params[j]? =
        if j ∈ l then
          (match syncValue mem s j with
            | some v => some v
            | none => s.params[j]?)
        else s.params[j]?) ∧
      syncCalls t.trace =
        syncCalls s.trace ++
          (l.filter fun j => (syncValue mem s j).isSome).map (fun (j : Nat) => (j : Int)) := by
  induction l generalizing s with
  | nil => exact ⟨s, rfl, by simp, by simp⟩
  | cons i l ih =>
    obtain ⟨hi, hp⟩ := h i (List.mem_cons_self i l)
    have hil : i ∉ l := (List.nodup_cons.mp hnd).1
    have hl : l.Nodup := (List.nodup_cons.mp hnd).2
    have e1 := run_controlPort_eq mem s i hi hp
    obtain ⟨a1, a2, _⟩ := run_controlPort_frame mem s _ i e1
    generalize hs1 : (match syncValue mem s i with
        | some v => emit (IParam_Set s i v) (Call.OnParamChange i EParamSource.kHost none)
        | none => s) = s1 at e1 a1 a2
    have hc : s1.mControlPorts = s.mControlPorts := by rw [a1]
    have hpar : ∀ j, j ≠ i → s1.params[j]? = s.params[j]? := by
      intro j hj
      rw [← hs1]
      cases syncValue mem s i with
      | none => rfl
      | some v =>
        simp only [emit, IParam_Set]
        rw [List.getElem?_set_ne (Ne.symm hj)]
    have hpi : s1.params[i]? =
        (match syncValue mem s i with
          | some v => some v
          | none => s.params[i]?) := by
      rw [← hs1]
      cases syncValue mem s i with
      | none => rfl
      | some v =>
        simp only [emit, IParam_Set]
        rw [List.getElem?_set_self hi]
    have htr : syncCalls s1.trace =
        syncCalls s.trace ++ (if (syncValue mem s i).isSome then [(i : Int)] else []) := by
      rw [← hs1]
      cases syncValue mem s i with
      | none => simp
      | some v => simp [emit, IParam_Set, syncCalls_append, syncCalls]
    obtain ⟨t, ht, b1, b2⟩ := ih s1 hl (by
      intro j hj
      obtain ⟨hj1, hj2⟩ := h j (List.mem_cons_of_mem i hj)
      rw [a2, hc]
      exact ⟨hj1, hj2⟩)
    refine ⟨t, ?_, ?_, ?_⟩
    · simp only [List.foldlM, bind, Except.bind, e1]
      exact ht
    · intro j
      rw [b1 j]
      by_cases hji : j = i
      · subst hji
        simp only [hil, if_false, List.mem_cons, true_or, if_true]
        exact hpi
      · rw [syncValue_congr mem s s1 j hc (hpar j hji), hpar j hji]
        by_cases hjl : j ∈ l
        · simp [hjl]
        · simp [hjl, hji]
    · rw [b2, htr, List.append_assoc]
      congr 1
      have hf : (l.filter fun j => (syncValue mem s1 j).isSome) =
          (l.filter fun j => (syncValue mem s j).isSome) := by
        apply List.filter_congr
        intro j hj
        have hji : j ≠ i := fun hh => hil (hh ▸ hj)
        rw [syncValue_congr mem s s1 j hc (hpar j hji)]
      rw [hf, List.filter_cons]
      by_cases hsome : (syncValue mem s i).isSome = true
      · simp [hsome]
      · simp [hsome]

/-- A completed `run`, stage by stage. -/
theorem run_explicit (s : IPlugLV2DSP) (mem : HostMemory) (n : Nat) (s' : IPlugLV2DSP)
    (h : run s mem n = .ok s') :
    ∃ p q s2, s.mPorts[0]? = some p ∧ derefSequence mem p = .ok q ∧
      (if (run_events (run_prologue s n) n q.events).controlPorts then
          run_controlPorts mem (run_events (run_prologue s n) n q.events)
        else .ok (run_events (run_prologue s n) n q.events)) = .ok s2 ∧
      s' = emit s2 (run_processBlock s n) := by
  unfold run at h
  simp only at h
  split at h
  · cases h
  · rename_i port0 hport
    split at h
    · cases h
    · rename_i q hq
      split at h
      · cases h
      · rename_i s2 hs2
        cases h
        refine ⟨port0, q, s2, ?_, hq, hs2, rfl⟩
        rw [← hport]
        exact (congrArg (fun t => t.mPorts[0]?) (run_prologue_frame s n _ _)).symm

theorem run_prologue_eq (s : IPlugLV2DSP) (n : Nat) :
    run_prologue s n =
      { s with mBlockSize := (run_blockSizeGuard s n).mBlockSize,
               trace := (run_prologue s n).trace } := by
  unfold run_prologue
  exact run_prologue_frame s n _ _

/-- Observations that ignore `SetBlockSize` and `AttachBuffers` calls see nothing
of the prologue of `run`. -/
theorem filterMap_prologue {β : Type} (f : Call → Option β)
    (h1 : ∀ b, f (Call.SetBlockSize b) = none)
    (h2 : ∀ d i k pp nf, f (Call.AttachBuffers d i k pp nf) = none)
    (s : IPlugLV2DSP) (n : Nat) :
    (run_prologue s n).trace.filterMap f = s.trace.filterMap f := by
  have hg : (run_blockSizeGuard s n).trace.filterMap f = s.trace.filterMap f := by
    unfold run_blockSizeGuard
    by_cases h : toUInt32 s.mBlockSize < n
    · rw [if_pos h]
      show (s.trace ++ [Call.SetBlockSize (toInt32 n)]).filterMap f = s.trace.filterMap f
      rw [List.filterMap_append]
      simp only [List.filterMap_cons, h1, List.filterMap_nil, List.append_nil]
    · rw [if_neg h]
  have ht : ∀ (g : IPlugLV2DSP) (c1 c2 : Call), (emit (emit g c1) c2).trace = g.trace ++ [c1, c2] := by
    intro g c1 c2
    simp only [emit, List.append_assoc, List.singleton_append]
  unfold run_prologue
  simp only
  rw [ht, List.filterMap_append, hg]
  simp only [List.filterMap_cons, h2, List.filterMap_nil, List.append_nil]

theorem syncCalls_prologue (s : IPlugLV2DSP) (n : Nat) :
    syncCalls (run_prologue s n).trace = syncCalls s.trace :=
  filterMap_prologue _ (fun _ => rfl) (fun _ _ _ _ _ => rfl) s n

theorem run_midi_trace (t : IPlugLV2DSP) (ev : Event) :
    (run_midi t ev).trace = t.trace ∨
      ∃ o b0 b1 b2, (run_midi t ev).trace = t.trace ++ [Call.ProcessMidiMsg o b0 b1 b2] := by
  unfold run_midi
  by_cases h1 : ev.type = t.mCoreURIs.midi_MidiEvent
  · by_cases h2 : lv2_midi_message_type ev.msg0 = LV2_MIDI_MSG_NOTE_ON ∨
        lv2_midi_message_type ev.msg0 = LV2_MIDI_MSG_NOTE_OFF
    · rw [if_pos h1]
      simp only [if_pos h2]
      exact Or.inr ⟨_, _, _, _, rfl⟩
    · rw [if_pos h1]
      simp only [if_neg h2]
      exact Or.inl trivial
  · rw [if_neg h1]
    exact Or.inl rfl

theorem run_object_trace (s s1 : IPlugLV2DSP) (n : Nat) (ev : Event)
    (h : run_object s n ev = some s1) :
    s1.trace = s.trace ∨
      ∃ i off, s1.trace = s.trace ++ [Call.OnParamChange i EParamSource.kHost (some off)] := by
  unfold run_object at h
  split at h
  · split at h
    · split at h
      · cases h
      · split at h
        · cases h
        · split at h
          · cases h
          · cases h
            exact Or.inr ⟨_, _, rfl⟩
    · cases h
      exact Or.inl rfl
  · cases h
    exact Or.inl rfl

/-- Observations that ignore `ProcessMidiMsg` calls and the three-argument
`OnParamChange` calls see nothing of the loop body. -/
theorem filterMap_run_event {β : Type} (f : Call → Option β)
    (h1 : ∀ o b0 b1 b2, f (Call.ProcessMidiMsg o b0 b1 b2) = none)
    (h2 : ∀ i off, f (Call.OnParamChange i EParamSource.kHost (some off)) = none)
    (n : Nat) (s : IPlugLV2DSP) (ev : Event) :
    (run_event n s ev).trace.filterMap f = s.trace.filterMap f := by
  have hm : ∀ t : IPlugLV2DSP, (run_midi t ev).trace.filterMap f = t.trace.filterMap f := by
    intro t
    rcases run_midi_trace t ev with h | ⟨o, b0, b1, b2, h⟩
    · rw [h]
    · rw [h, List.filterMap_append]
      simp only [List.filterMap_cons, h1, List.filterMap_nil, List.append_nil]
  unfold run_event
  cases h : run_object s n ev with
  | none => rfl
  | some s1 =>
    simp only
    rw [hm s1]
    rcases run_object_trace s s1 n ev h with h3 | ⟨i, off, h3⟩
    · rw [h3]
    · rw [h3, List.filterMap_append]
      simp only [List.filterMap_cons, h2, List.filterMap_nil, List.append_nil]

theorem filterMap_run_events {β : Type} (f : Call → Option β)
    (h1 : ∀ o b0 b1 b2, f (Call.ProcessMidiMsg o b0 b1 b2) = none)
    (h2 : ∀ i off, f (Call.OnParamChange i EParamSource.kHost (some off)) = none)
    (n : Nat) (evs : List Event) (s : IPlugLV2DSP) :
    (run_events s n evs).trace.filterMap f = s.trace.filterMap f := by
  induction evs generalizing s with
  | nil => rfl
  | cons ev evs ih =>
    have e1 : run_events s n (ev :: evs) = run_events (run_event n s ev) n evs := rfl
    rw [e1, ih, filterMap_run_event f h1 h2]

theorem syncCalls_run_events (n : Nat) (evs : List Event) (s : IPlugLV2DSP) :
    syncCalls (run_events s n evs).trace = syncCalls s.trace :=
  filterMap_run_events _ (fun _ _ _ _ => rfl) (fun _ _ => rfl) n evs s

theorem count_cast_filter_range (N i : Nat) (f : Nat → Bool) (hi : i < N) :
    (((List.range N).filter f).map (fun (j : Nat) => (j : Int))).count (i : Int) =
      if f i then 1 else 0 := by
  have hnd : (((List.range N).filter f).map (fun (j : Nat) => (j : Int))).Nodup :=
    List.Nodup.map (fun a b hab => Int.ofNat.inj hab) ((List.nodup_range N).filter _)
  by_cases hf : f i = true
  · rw [if_pos hf]
    apply List.count_eq_one_of_mem hnd
    exact List.mem_map.mpr ⟨i, List.mem_filter.mpr ⟨List.mem_range.mpr hi, hf⟩, rfl⟩
  · rw [if_neg hf]
    apply List.count_eq_zero_of_not_mem
    intro hmem
    obtain ⟨j, hj, hji⟩ := List.mem_map.mp hmem
    have : j = i := Int.ofNat.inj hji
    subst this
    exact hf (List.mem_filter.mp hj).2

/-- C13: with `LV2_CONTROL_PORTS` defined, the event port bound to a sequence and
every control port null or readable, `run` completes and, for every parameter
ordinal `i` with control port pointer `pi` and stored value `cur`: if `pi` is
non-null and the value `v` behind it differs from `cur`, then after `run` the
stored value of parameter `i` is `v` and the control port loop has emitted
exactly one host-sourced change notification for `i`; if `pi` is null or the
value behind it equals `cur`, parameter `i` still holds `cur` and the loop has
emitted no notification for `i`. -/
theorem run_syncs_control_ports (s : IPlugLV2DSP) (mem : HostMemory) (n p : Nat)
    (q : AtomSequence) (hctl : s.controlPorts = true)
    (h0 : s.mPorts[0]? = some p) (hq : derefSequence mem p = .ok q)
    (hcp : ControlPortsReadable mem s) :
    ∃ s', run s mem n = .ok s' ∧
      ∀ i, i < s.NParams → ∀ pi cur, s.mControlPorts[i]? = some pi → s.params[i]? = some cur →
        (∀ v, pi ≠ 0 → derefFloat mem pi = .ok v → v ≠ cur →
          s'.params[i]? = some v ∧
            (syncCalls s'.trace).count (i : Int) = (syncCalls s.trace).count (i : Int) + 1) ∧
        ((pi = 0 ∨ derefFloat mem pi = .ok cur) →
          s'.params[i]? = some cur ∧
            (syncCalls s'.trace).count (i : Int) = (syncCalls s.trace).count (i : Int)) := by
  obtain ⟨s', hs'⟩ := run_returns s mem n p q h0 hq hcp
  obtain ⟨p', q', s2, a1, a2, a3, a4⟩ := run_explicit s mem n s' hs'
  have ep : p' = p := Option.some.inj (a1.symm.trans h0)
  subst ep
  have eq : q' = q := by
    have := a2.symm.trans hq
    cases this
    rfl
  subst eq
  have hS := run_events_frame n q'.events (run_prologue s n)
  have hP := run_prologue_eq s n
  have c1 : (run_events (run_prologue s n) n q'.events).controlPorts = true := by
    rw [hS, hP]; exact hctl
  have c2 : (run_events (run_prologue s n) n q'.events).params = s.params := by
    rw [hS, hP]
  have c3 : (run_events (run_prologue s n) n q'.events).mControlPorts = s.mControlPorts := by
    rw [hS, hP]
  have c4 : syncCalls (run_events (run_prologue s n) n q'.events).trace = syncCalls s.trace := by
    rw [syncCalls_run_events, syncCalls_prologue]
  rw [if_pos c1] at a3
  unfold run_controlPorts at a3
  have hN : (run_events (run_prologue s n) n q'.events).NParams = s.NParams := by
    unfold IPlugLV2DSP.NParams; rw [c2]
  rw [hN] at a3
  obtain ⟨t, ht, b1, b2⟩ := foldlM_controlPort_eq mem (List.range s.NParams)
    (run_events (run_prologue s n) n q'.events) (List.nodup_range _) (by
      intro i hi
      have hi1 : i < s.NParams := List.mem_range.mp hi
      rw [c2, c3]
      exact ⟨hi1, hcp hctl i hi1⟩)
  have et : t = s2 := by
    have := ht.symm.trans a3
    cases this
    rfl
  subst et
  have d1 : s'.params = t.params := by rw [a4]; rfl
  have d2 : syncCalls s'.trace = syncCalls t.trace := by
    rw [a4]
    simp [emit, run_processBlock, syncCalls_append, syncCalls]
  have sv : ∀ j, syncValue mem (run_events (run_prologue s n) n q'.events) j = syncValue mem s j :=
    fun j => syncValue_congr mem s _ j c3 (by rw [c2])
  refine ⟨s', hs', ?_⟩
  intro i hi pi cur hpi hcur
  have hmem : i ∈ List.range s.NParams := List.mem_range.mpr hi
  have par := b1 i
  rw [if_pos hmem, sv i, c2] at par
  have cnt : (syncCalls s'.trace).count (i : Int) =
      (syncCalls s.trace).count (i : Int) + if (syncValue mem s i).isSome then 1 else 0 := by
    rw [d2, b2, c4, List.count_append]
    congr 1
    have hf : (List.filter
        (fun j => (syncValue mem (run_events (run_prologue s n) n q'.events) j).isSome)
        (List.range s.NParams)) =
        List.filter (fun j => (syncValue mem s j).isSome) (List.range s.NParams) := by
      apply List.filter_congr
      intro j _
      rw [sv j]
    rw [hf]
    exact count_cast_filter_range s.NParams i (fun j => (syncValue mem s j).isSome) hi
  constructor
  · intro v hne hv hvc
    have hsv : syncValue mem s i = some v := by
      unfold syncValue
      rw [hpi, hcur]
      simp [hne, hv, Ne.symm hvc]
    rw [hsv] at par cnt
    exact ⟨by rw [d1]; exact par, by simpa using cnt⟩
  · intro hcase
    have hsv : syncValue mem s i = none := by
      unfold syncValue
      rw [hpi, hcur]
      rcases hcase with h1 | h1
      · simp [h1]
      · by_cases hp0 : pi = 0
        · simp [hp0]
        · simp [hp0, h1]
    rw [hsv] at par cnt
    exact ⟨by rw [d1, ← hcur]; exact par, by simpa using cnt⟩

/-- Witness of C13: on the two-parameter instance with control ports, the port
of Par0 holds 1/2 (stored: 0) and the port of Par1 is null. -/
theorem run_syncs_control_ports_witness :
    twoParamsControl.controlPorts = true ∧
      twoParamsControl.mPorts[0]? = some 1000 ∧
      derefSequence (hostWith scenarioEvents) 1000 = .ok { size := 56, events := scenarioEvents } ∧
      ControlPortsReadable (hostWith scenarioEvents) twoParamsControl ∧
      ∃ s', run twoParamsControl (hostWith scenarioEvents) 64 = .ok s' ∧
        (s'.params[0]? = some (1 / 2) ∧ (syncCalls s'.trace).count 0 = 1) ∧
        (s'.params[1]? = some 0 ∧ (syncCalls s'.trace).count 1 = 0) := by
  have h0 : twoParamsControl.mPorts[0]? = some 1000 := rfl
  have hq : derefSequence (hostWith scenarioEvents) 1000 =
      .ok { size := 56, events := scenarioEvents } := rfl
  have hcp : ControlPortsReadable (hostWith scenarioEvents) twoParamsControl := by
    intro _ i hi
    have hi2 : i < 2 := hi
    match i, hi2 with
    | 0, _ => exact ⟨5000, rfl, Or.inr ⟨1 / 2, rfl⟩⟩
    | 1, _ => exact ⟨0, rfl, Or.inl rfl⟩
  obtain ⟨s', h1, h2⟩ :=
    run_syncs_control_ports twoParamsControl (hostWith scenarioEvents) 64 1000
      { size := 56, events := scenarioEvents } rfl h0 hq hcp
  have hA := (h2 0 (by decide) 5000 0 rfl rfl).1 (1 / 2) (by decide) rfl (by norm_num)
  have hB := (h2 1 (by decide) 0 0 rfl rfl).2 (Or.inl rfl)
  exact ⟨rfl, h0, hq, hcp, s', h1, ⟨hA.1, hA.2⟩, ⟨hB.1, hB.2⟩⟩

/-! ### Offending events are skipped -/

/-- On an instance whose object and MIDI-event identifiers differ, every
offending event is one that does not carry both tags. -/
theorem offendingNotBoth_of_distinct (u : CoreURIs) (ev : Event)
    (hne : u.atom_Object ≠ u.midi_MidiEvent) (hoff : Offending u ev) :
    OffendingNotBoth u ev := by
  rcases hoff with h | ⟨h1, h2⟩ | h | h
  · exact Or.inl h
  · exact Or.inr (Or.inl ⟨h1, fun hc => hne (h1.symm.trans hc), h2⟩)
  · exact Or.inr (Or.inr (Or.inl h))
  · exact Or.inr (Or.inr (Or.inr h))

theorem run_event_offending (n : Nat) (s : IPlugLV2DSP) (ev : Event)
    (hoff : OffendingNotBoth s.mCoreURIs ev) : run_event n s ev = s := by
  unfold run_event run_object run_midi
  rcases hoff with ⟨h1, h2⟩ | ⟨h1, hm, h2⟩ | ⟨h1, h2, h3⟩ | ⟨h1, h2, h3⟩
  · simp [h1, h2]
  · have h3 : ¬ s.mCoreURIs.atom_Object = s.mCoreURIs.midi_MidiEvent := by
      rw [← h1]; exact hm
    simp [h1, h2, h3]
  · cases hp : lv2_atom_object_get ev.props s.mCoreURIs.patch_property with
    | none => simp [h1, h2]
    | some property =>
      rw [hp] at h3
      have h4 : property.type ≠ s.mCoreURIs.atom_URID := h3
      simp [h1, h2, h4]
  · cases hp : lv2_atom_object_get ev.props s.mCoreURIs.patch_property with
    | none => simp [h1, h2]
    | some property =>
      by_cases h4 : property.type = s.mCoreURIs.atom_URID
      · simp [h1, h2, h3, h4]
      · simp [h1, h2, h4]

theorem run_events_append (n : Nat) (s : IPlugLV2DSP) (a b : List Event) :
    run_events s n (a ++ b) = run_events (run_events s n a) n b := by
  simp [run_events, List.foldl_append]

theorem derefFloat_congr (mem1 mem2 : HostMemory) (p : Nat) (q1 q2 : AtomSequence)
    (h1 : mem1 p = some (HostObject.sequence q1)) (h2 : mem2 p = some (HostObject.sequence q2))
    (hm : ∀ a, a ≠ p → mem1 a = mem2 a) (a : Nat) : derefFloat mem1 a = derefFloat mem2 a := by
  unfold derefFloat deref
  by_cases ha : a = p
  · subst ha
    rw [h1, h2]
    by_cases h0 : a = 0
    · simp [h0]
    · simp [h0]
  · rw [hm a ha]

theorem run_controlPorts_congr (mem1 mem2 : HostMemory)
    (h : ∀ a, derefFloat mem1 a = derefFloat mem2 a) (s : IPlugLV2DSP) :
    run_controlPorts mem1 s = run_controlPorts mem2 s := by
  have hf : run_controlPort mem1 = run_controlPort mem2 := by
    funext t i
    unfold run_controlPort
    cases t.mControlPorts[i]? with
    | none => rfl
    | some pParam => simp only [h pParam]
  unfold run_controlPorts
  rw [hf]

/-- The block driver in terms of its stages. -/
theorem run_def (s : IPlugLV2DSP) (mem : HostMemory) (n : Nat) :
    run s mem n =
      match s.mPorts[0]? with
      | none => .error Fault.outOfBounds
      | some port0 =>
        match derefSequence mem port0 with
        | .error f => .error f
        | .ok q =>
          match (if (run_events (run_prologue s n) n q.events).controlPorts then
              run_controlPorts mem (run_events (run_prologue s n) n q.events)
            else .ok (run_events (run_prologue s n) n q.events)) with
          | .error f => .error f
          | .ok t => .ok (emit t (run_processBlock s n)) := by
  have e0 : (run_prologue s n).mPorts = s.mPorts := by rw [run_prologue_eq]
  rw [← e0]
  rfl

/-- C14 (amended): on every instance, an offending event that does not carry
the object tag and the raw MIDI tag at once (tag neither object nor raw MIDI;
object, not also tagged raw MIDI, whose type is not patch-set; patch-set whose
property is missing or not of the URID sub-type; patch-set with no value)
leaves the instance as it was, so no parameter-change notification and no
MIDI-relay call is made for it; the event loop handles the events after it as
if it were absent; and `run` on a sequence holding the event gives the same
result as `run` on the sequence without it. -/
theorem run_drops_offending_event (s : IPlugLV2DSP) (n : Nat) (ev : Event)
    (hoff : OffendingNotBoth s.mCoreURIs ev) :
    run_event n s ev = s ∧
      (∀ pre post, run_events s n (pre ++ ev :: post) = run_events s n (pre ++ post)) ∧
      (∀ (mem1 mem2 : HostMemory) (p z1 z2 : Nat) (pre post : List Event),
        s.mPorts[0]? = some p →
        mem1 p = some (HostObject.sequence { size := z1, events := pre ++ ev :: post }) →
        mem2 p = some (HostObject.sequence { size := z2, events := pre ++ post }) →
        (∀ a, a ≠ p → mem1 a = mem2 a) →
        run s mem1 n = run s mem2 n) := by
  have key : ∀ (t : IPlugLV2DSP), t.mCoreURIs = s.mCoreURIs →
      ∀ pre post, run_events t n (pre ++ ev :: post) = run_events t n (pre ++ post) := by
    intro t ht pre post
    rw [run_events_append, run_events_append]
    have h1 : run_events (run_events t n pre) n (ev :: post) =
        run_events (run_event n (run_events t n pre) ev) n post := rfl
    have hu : (run_events t n pre).mCoreURIs = s.mCoreURIs := by
      rw [run_events_frame n pre t]; exact ht
    rw [h1, run_event_offending n _ ev (by rw [hu]; exact hoff)]
  refine ⟨run_event_offending n s ev hoff, key s rfl, ?_⟩
  intro mem1 mem2 p z1 z2 pre post h0 h1 h2 hm
  rw [run_def s mem1 n, run_def s mem2 n, h0]
  simp only
  by_cases hp0 : p = 0
  · have e1 : derefSequence mem1 p = .error Fault.nullDereference := by
      simp [derefSequence, deref, hp0]
    have e2 : derefSequence mem2 p = .error Fault.nullDereference := by
      simp [derefSequence, deref, hp0]
    rw [e1, e2]
  · have e1 : derefSequence mem1 p =
        .ok { size := z1, events := pre ++ ev :: post } := by
      simp [derefSequence, deref, hp0, h1]
    have e2 : derefSequence mem2 p = .ok { size := z2, events := pre ++ post } := by
      simp [derefSequence, deref, hp0, h2]
    rw [e1, e2]
    simp only
    have hu : (run_prologue s n).mCoreURIs = s.mCoreURIs := by rw [run_prologue_eq]
    rw [key (run_prologue s n) hu pre post]
    rw [run_controlPorts_congr mem1 mem2 (derefFloat_congr mem1 mem2 p _ _ h1 h2 hm)]

/-- Witness of C14 (amended): a patch-set without a value between a patch-set
and a note-on of the two-parameter plug-in. -/
theorem run_drops_offending_event_witness :
    OffendingNotBoth twoParams.mCoreURIs (patchSetNoValue 15 11) ∧
      run_event 64 twoParams (patchSetNoValue 15 11) = twoParams ∧
      run twoParams
          (hostWith [patchSet 10 10 (3 / 4), patchSetNoValue 15 11, midiEvent 20 0x90 60 100]) 64 =
        run twoParams (hostWith [patchSet 10 10 (3 / 4), midiEvent 20 0x90 60 100]) 64 := by
  have hoff : OffendingNotBoth twoParams.mCoreURIs (patchSetNoValue 15 11) :=
    Or.inr (Or.inr (Or.inr ⟨rfl, rfl, rfl⟩))
  have h := run_drops_offending_event twoParams 64 (patchSetNoValue 15 11) hoff
  refine ⟨hoff, h.1, ?_⟩
  exact h.2.2 (hostWith [patchSet 10 10 (3 / 4), patchSetNoValue 15 11, midiEvent 20 0x90 60 100])
    (hostWith [patchSet 10 10 (3 / 4), midiEvent 20 0x90 60 100]) 1000 _ _
    [patchSet 10 10 (3 / 4)] [midiEvent 20 0x90 60 100] rfl rfl rfl (by
      intro a ha
      simp [hostWith, ha])

/-- C14 (counterexample): on the instance constructed without the URID map
service over zeroed storage, the object and MIDI-event identifiers are both 0;
the event `taggedBoth` is an object whose type (9) is not patch-set, hence
offending, yet `run` relays it to the MIDI relay as the note-on (5, 0x90, 60, 100). -/
theorem run_relays_offending_object :
    Offending (construct infoWithoutMap config2 zeroed).mCoreURIs taggedBoth ∧
      run_event 64 (construct infoWithoutMap config2 zeroed) taggedBoth ≠
        construct infoWithoutMap config2 zeroed ∧
      ∃ s', run (connect_port (construct infoWithoutMap config2 zeroed) 0 1000)
          (hostWith [taggedBoth]) 64 = .ok s' ∧
        midiCalls s'.trace = [(5, 0x90, 60, 100)] := by
  refine ⟨Or.inr (Or.inl ⟨rfl, by decide⟩), by decide, ?_⟩
  refine ⟨{ twoParams with
      mCoreURIs := zeroed.mCoreURIs, mParamIDMap := [], mPorts := [1000, 0], mIOPorts := [0, 0],
      mBlockSize := 1024, mFirstActivate := true,
      trace := [Call.SetBlockSize 1024,
                Call.AttachBuffers ERoute.kInput 0 1 [0] 64,
                Call.AttachBuffers ERoute.kOutput 0 1 [0] 64,
                Call.ProcessMidiMsg 5 0x90 60 100,
                Call.ProcessBlock [0] [0] 64] }, rfl, rfl⟩

/-! ### The sample offset of a patch-set event -/

theorem hostChanges_append (a b : List Call) :
    hostChanges (a ++ b) = hostChanges a ++ hostChanges b := by
  simp [hostChanges, List.filterMap_append]

theorem hostChanges_run_midi (t : IPlugLV2DSP) (ev : Event) :
    hostChanges (run_midi t ev).trace = hostChanges t.trace := by
  rcases run_midi_trace t ev with h | ⟨o, b0, b1, b2, h⟩
  · rw [h]
  · rw [h, hostChanges_append]
    exact List.append_nil _

theorem sampleAt_eq (t : Int) (n : Nat) (hn1 : 1 ≤ n) (hn2 : n ≤ 2147483648) :
    toInt32 ((if toUInt32 t ≥ n then toUInt32 ((n : Int) - 1) else toUInt32 t : Nat) : Int) =
      clampUInt32 t n := by
  unfold toInt32 toUInt32 clampUInt32
  split <;> omega

/-- The offset of the notification of a patch-set event as the loop body
computes it: for an event with a URID property, a value and a resolved
identifier (parameter `k`), with frame time `t`, in a block of `n` samples,
`1 ≤ n ≤ 2^31`, one host-sourced change notification for `k` is emitted, at
offset `clampUInt32 t n`; that offset lies in `[0, n)` and is `clamp(t, 0, n - 1)`
whenever `0 ≤ t < 2^32`. -/
theorem run_event_patchSet_offset (s : IPlugLV2DSP) (n : Nat) (ev : Event)
    (property val : Atom) (k : Int) (hn1 : 1 ≤ n) (hn2 : n ≤ 2147483648)
    (h1 : ev.type = s.mCoreURIs.atom_Object) (h2 : ev.otype = s.mCoreURIs.patch_Set)
    (h3 : lv2_atom_object_get ev.props s.mCoreURIs.patch_property = some property)
    (h4 : property.type = s.mCoreURIs.atom_URID)
    (h5 : lv2_atom_object_get ev.props s.mCoreURIs.patch_value = some val)
    (h6 : ParamIDMap_find s.mParamIDMap property.word = some k) :
    hostChanges (run_event n s ev).trace =
        hostChanges s.trace ++ [(k, clampUInt32 ev.frames n)] ∧
      (0 ≤ clampUInt32 ev.frames n ∧ clampUInt32 ev.frames n < n) ∧
      (0 ≤ ev.frames → ev.frames < 4294967296 →
        clampUInt32 ev.frames n = clampAsStated ev.frames n) := by
  refine ⟨?_, ?_, ?_⟩
  · have hobj : run_object s n ev =
        some (emit s (Call.OnParamChange k EParamSource.kHost
          (some (clampUInt32 ev.frames n)))) := by
      unfold run_object
      simp only [h1, h2, h3, h4, h5, if_true, ne_eq, not_true_eq_false, if_false,
        ParamIDMap_subscript, h6]
      rw [sampleAt_eq ev.frames n hn1 hn2]
    unfold run_event
    rw [hobj]
    simp only
    rw [hostChanges_run_midi]
    simp [emit, hostChanges_append, hostChanges]
  · unfold clampUInt32; omega
  · intro ha hb
    unfold clampUInt32 clampAsStated
    omega

/-- C16 (the code at the failing inputs): in a 64-sample block a patch-set
event for Par0 with frame time 2^32 + 5 is notified at offset 5, whereas
`clamp(2^32 + 5, 0, 63)` is 63; and one with frame time -1 is notified at offset
63, whereas `clamp(-1, 0, 63)` is 0.  Line 237 stores the 64-bit frame time in
a `uint32_t` before the comparison of line 240. -/
theorem run_patchSet_offset_narrowed :
    (∃ s', run twoParams (hostWith [patchSet 4294967301 10 1]) 64 = .ok s' ∧
        hostChanges s'.trace = [(0, 5)] ∧ clampAsStated 4294967301 64 = 63) ∧
      (∃ s', run twoParams (hostWith [patchSet (-1) 10 1]) 64 = .ok s' ∧
        hostChanges s'.trace = [(0, 63)] ∧ clampAsStated (-1) 64 = 0) := by
  constructor
  · refine ⟨{ twoParams with
        trace := [Call.AttachBuffers ERoute.kInput 0 1 [3000] 64,
                  Call.AttachBuffers ERoute.kOutput 0 1 [4000] 64,
                  Call.OnParamChange 0 EParamSource.kHost (some 5),
                  Call.ProcessBlock [3000] [4000] 64] }, rfl, rfl, ?_⟩
    decide
  · refine ⟨{ twoParams with
        trace := [Call.AttachBuffers ERoute.kInput 0 1 [3000] 64,
                  Call.AttachBuffers ERoute.kOutput 0 1 [4000] 64,
                  Call.OnParamChange 0 EParamSource.kHost (some 63),
                  Call.ProcessBlock [3000] [4000] 64] }, rfl, rfl, ?_⟩
    decide

/-- The patch-set event of the scenario (frame time 10, Par0) in a 64-sample
block is notified at offset 10. -/
theorem run_event_patchSet_offset_witness :
    (1 ≤ 64 ∧ 64 ≤ 2147483648) ∧
      hostChanges (run_event 64 twoParams (patchSet 10 10 (3 / 4))).trace = [(0, 10)] ∧
      clampUInt32 10 64 = clampAsStated 10 64 := by
  have h := run_event_patchSet_offset twoParams 64 (patchSet 10 10 (3 / 4))
    { type := 2, word := 10, value := 0 } { type := 7, word := 0, value := 3 / 4 } 0
    (by decide) (by decide) rfl rfl rfl rfl rfl rfl
  exact ⟨⟨by decide, by decide⟩, h.1, h.2.2 (by decide) (by decide)⟩

/-! ### Instances whose `patch_property` identifier is zero -/

theorem run_object_zero_property (t : IPlugLV2DSP) (n : Nat) (ev : Event)
    (h : t.mCoreURIs.patch_property = 0) :
    run_object t n ev = none ∨ run_object t n ev = some t := by
  unfold run_object
  by_cases h1 : ev.type = t.mCoreURIs.atom_Object
  · by_cases h2 : ev.otype = t.mCoreURIs.patch_Set
    · left
      simp [h1, h2, h, lv2_atom_object_get]
    · right
      simp [h1, h2]
  · right
    simp [h1]

theorem run_events_zero_property (n : Nat) (evs : List Event) (t : IPlugLV2DSP)
    (h : t.mCoreURIs.patch_property = 0) :
    hostChanges (run_events t n evs).trace = hostChanges t.trace ∧
      (run_events t n evs).mParamIDMap = t.mParamIDMap := by
  induction evs generalizing t with
  | nil => exact ⟨rfl, rfl⟩
  | cons ev evs ih =>
    have h1 : run_events t n (ev :: evs) = run_events (run_event n t ev) n evs := rfl
    have hu : (run_event n t ev).mCoreURIs = t.mCoreURIs := by rw [run_event_frame n t ev]
    have step : hostChanges (run_event n t ev).trace = hostChanges t.trace ∧
        (run_event n t ev).mParamIDMap = t.mParamIDMap := by
      unfold run_event
      rcases run_object_zero_property t n ev h with h2 | h2
      · rw [h2]; exact ⟨rfl, rfl⟩
      · rw [h2]
        simp only
        exact ⟨hostChanges_run_midi t ev, by rw [(run_midi_frame t ev).1]⟩
    obtain ⟨a1, a2⟩ := ih (run_event n t ev) (by rw [hu]; exact h)
    rw [h1, a1, a2]
    exact step

theorem hostChanges_controlPort (mem : HostMemory) (s t : IPlugLV2DSP) (i : Nat)
    (h : run_controlPort mem s i = .ok t) : hostChanges t.trace = hostChanges s.trace := by
  unfold run_controlPort at h
  split at h
  · cases h
  · split at h
    · split at h
      · cases h
      · split at h
        · cases h
        · split at h
          · cases h
            simp [emit, IParam_Set, hostChanges_append, hostChanges]
          · cases h; rfl
    · cases h; rfl

theorem hostChanges_foldlM_controlPort (mem : HostMemory) (l : List Nat) (s t : IPlugLV2DSP)
    (h : l.foldlM (run_controlPort mem) s = .ok t) :
    hostChanges t.trace = hostChanges s.trace := by
  induction l generalizing s with
  | nil =>
    simp only [List.foldlM, pure, Except.pure] at h
    cases h
    rfl
  | cons i l ih =>
    simp only [List.foldlM, bind, Except.bind] at h
    cases h1 : run_controlPort mem s i with
    | error f => rw [h1] at h; cases h
    | ok s1 =>
      rw [h1] at h
      rw [ih s1 h, hostChanges_controlPort mem s s1 i h1]

theorem hostChanges_prologue (s : IPlugLV2DSP) (n : Nat) :
    hostChanges (run_prologue s n).trace = hostChanges s.trace :=
  filterMap_prologue _ (fun _ => rfl) (fun _ _ _ _ _ => rfl) s n

/-- When the `patch_property` member of `mCoreURIs` is zero (as in storage that
was zeroed and never assigned), a completed `run` has emitted no host-sourced
notification from the event loop and has left the identifier map as it was,
whatever the input events are. -/
theorem run_zero_property_drops (s : IPlugLV2DSP) (mem : HostMemory) (n : Nat)
    (s' : IPlugLV2DSP) (h : s.mCoreURIs.patch_property = 0) (hr : run s mem n = .ok s') :
    hostChanges s'.trace = hostChanges s.trace ∧ s'.mParamIDMap = s.mParamIDMap := by
  obtain ⟨p, q, s2, _, _, a3, a4⟩ := run_explicit s mem n s' hr
  have hP := run_prologue_eq s n
  have hu : (run_prologue s n).mCoreURIs.patch_property = 0 := by rw [hP]; exact h
  obtain ⟨b1, b2⟩ := run_events_zero_property n q.events (run_prologue s n) hu
  have c1 : hostChanges s2.trace = hostChanges (run_events (run_prologue s n) n q.events).trace ∧
      s2.mParamIDMap = (run_events (run_prologue s n) n q.events).mParamIDMap := by
    by_cases hc : (run_events (run_prologue s n) n q.events).controlPorts = true
    · rw [if_pos hc] at a3
      exact ⟨hostChanges_foldlM_controlPort mem _ _ s2 a3,
        by rw [(foldlM_controlPort_frame mem _ _ s2 a3).1]⟩
    · rw [if_neg hc] at a3
      cases a3
      exact ⟨rfl, rfl⟩
  constructor
  · rw [a4]
    simp only [emit, run_processBlock, hostChanges_append]
    rw [c1.1, b1, hostChanges_prologue]
    simp [hostChanges]
  · rw [a4]
    simp only [emit]
    rw [c1.2, b2, hP]

/-! ### Port numbering of the editor and of the DSP -/

/-- C17 (the code at the failing input): with one input, one output and two
parameters on both sides, `InformHostOfParamChange(0)` writes port index 2
(`mParameterPortOffset + 0`, the offset being 1 + 1), and `port_event` on index 2
sets parameter 0; but the DSP's `connect_port` routes slot 2 to audio port 0,
and it is slot 4 that it routes to direct-control port 0. -/
theorem editor_port_index_misses_event_ports :
    (editor2.mParameterPortOffset = 2 ∧ twoParams.nInputs = 1 ∧ twoParams.nOutputs = 1 ∧
        twoParams.NParams = 2 ∧ twoParams.PortsSized) ∧
      (∀ toFloat : ℚ → ℚ, InformHostOfParamChange toFloat editor2 0 =
        .ok { editor2 with trace := [EditorCall.HostWrite 2 4 0 (toFloat 0)] }) ∧
      port_event editor2 2 4 0 (some (1 / 2)) =
        .ok { editor2 with
              params := [1 / 2, 0],
              trace := [EditorCall.SendParameterValueFromDelegate 0 (1 / 2) false,
                        EditorCall.OnParamChange 0 EParamSource.kHost] } ∧
      connect_port twoParams 2 7777 = { twoParams with mIOPorts := [7777, 4000] } ∧
      connect_port twoParams 4 7777 = { twoParams with mControlPorts := [7777, 0] } := by
  refine ⟨⟨rfl, rfl, rfl, rfl, by decide⟩, fun _ => rfl, rfl, rfl, rfl⟩

/-! ### The descriptor table and `binary_find` at concrete inputs -/

/-- C18 (the code at the failing input): with plug-in URI `urn:x` and two I/O
configurations, the table has two entries and `descriptor(2)` is null, but the
URI of `descriptor(0)`, read as a NUL-terminated string, is
`urn:x#io_0urn:x#io_1`, not `urn:x#io_0`: `urip` advances by the return value
of `snprintf`, which does not count the NUL, so the next text overwrites it. -/
theorem descriptor_uri_runs_into_next :
    ∃ st d0 d1,
      descriptor urnX 2 (fun _ => 255) noStatics 0 7 = .ok (some d0, st) ∧
      descriptor urnX 2 (fun _ => 255) st 1 7 = .ok (some d1, st) ∧
      descriptor urnX 2 (fun _ => 255) st 2 7 = .ok (none, st) ∧
      cString st.sUriBuf d0.URI = some (formatURI urnX 0 ++ formatURI urnX 1) ∧
      cString st.sUriBuf d0.URI ≠ some (formatURI urnX 0) ∧
      cString st.sUriBuf d1.URI = some (formatURI urnX 1) := by
  refine ⟨{ sDescriptors := [{ URI := 0, instantiate := 7 }, { URI := 10, instantiate := 7 }],
            sUriBuf := [117, 114, 110, 58, 120, 35, 105, 111, 95, 48,
                        117, 114, 110, 58, 120, 35, 105, 111, 95, 49, 0,
                        255, 255, 255, 255, 255, 255, 255, 255, 255] },
    { URI := 0, instantiate := 7 }, { URI := 10, instantiate := 7 }, rfl, rfl, rfl, ?_, ?_, ?_⟩
  · decide
  · decide
  · decide

/-- C19 (the code at the failing inputs): on the one-element sorted array `[5]`,
with 64-bit `size_t`, `binary_find` for the value 7, which no element matches,
returns 0, which is not negative and is a valid index; and for the value 3 it
lets `hi` wrap to 2^64 - 1 and then reads the array at index 2^63 - 1, outside
of `[0, len)`. -/
theorem binary_find_misses :
    binary_find 64 [5] 1 7 compareInt 4 = some (.ok 0) ∧
      binary_find 64 [5] 1 3 compareInt 4 = some (.error Fault.outOfBounds) ∧
      (0 + ((18446744073709551615 + 2 ^ 64 - 0) % 2 ^ 64) / 2) % 2 ^ 64 = 9223372036854775807 := by
  refine ⟨rfl, rfl, ?_⟩
  norm_num

/-! ### The URI buffer -/

end IPlugLV2
